import Mathlib

/-!
# fsck supervisor (`src/fsck.c`): shallow embedding and verified properties

The development follows the source file top to bottom:

* `percent` and `process_progress` (progress reporting),
* `parse_proc_cmdline_item`, `test_files` (configuration globals),
* `getfd` (console lookup),
* `main`, split at its labels `check_again`, `finish`, `console`, `finalcheck`.

Conventions.  C `int` values that can be negative are `Int`; `unsigned long`
and `usec_t` values are `Nat`, with an explicit `% 2 ^ 64` where the C
addition can wrap.  `double` arithmetic in `percent` is replaced by exact
rational arithmetic.  Everything the operating system decides (fork,
waitid, open, ioctl, flock, the clock) is an input of the model.
-/

namespace Fsck

/-! ## percent -/

/-- The table `pass_table` of `percent` ("Values stolen from e2fsck"). -/
def pass_table : List Int := [0, 70, 90, 92, 95, 100]

/-- Embedding of `percent(int pass, unsigned long cur, unsigned long max)`.
The cast `(unsigned) pass` is applied to a positive `int`, so it is the
identity; `pass_table[k]` is `pass_table.getD k 0`, the index being in range
on the last branch. -/
def percent (pass : Int) (cur max : Nat) : ℚ :=
  if pass ≤ 0 then 0
  else if pass.toNat ≥ pass_table.length ∨ max = 0 then 100
  else
    (pass_table.getD (pass.toNat - 1) 0 : ℚ) +
      ((pass_table.getD pass.toNat 0 : ℚ) - (pass_table.getD (pass.toNat - 1) 0 : ℚ)) *
        (cur : ℚ) / (max : ℚ)


/-! ## process_progress -/

/-- Modelled from the spec: the constant `USEC_PER_MSEC` of `util.h` (not under
`src/`); timestamps are microseconds and the spec's rate limit is 50
milliseconds, so one millisecond is 1000 microseconds. -/
def USEC_PER_MSEC : Nat := 1000

/-- One pass of the `while (!feof(f))` loop of `process_progress` whose
`fscanf` call parsed four fields, together with what the operating system
answers during that pass: `flock_ok` is the result of `flock(LOCK_EX|LOCK_NB)`
(consulted only while `locked` is false) and `t` is the value of
`now(CLOCK_MONOTONIC)` (consulted only once the lock is held). -/
structure ProgressRecord where
  pass : Int
  cur : Nat
  max : Nat
  device : String
  flock_ok : Bool
  t : Nat
deriving DecidableEq

/-- One progress line written to the console by `fprintf`, with the timestamp
`t` at which it was written. -/
structure ProgressLine where
  t : Nat
  device : String
  p : ℚ
deriving DecidableEq

/-- Local variables of `process_progress` that live across loop passes;
`written` is the log of the lines printed so far. -/
structure ProgressState where
  last : Nat
  locked : Bool
  clear : Int
  written : List ProgressLine
deriving DecidableEq

/-- The line a record would print, stamped with the record's clock value. -/
def ProgressRecord.line (x : ProgressRecord) : ProgressLine :=
  ⟨x.t, x.device, percent x.pass x.cur x.max⟩

/-- The body of the loop of `process_progress` for one parsed record.
`fmt_len device p` is the character count `%n` stores into `m`.  The sum
`last + 50 * USEC_PER_MSEC` is a `usec_t` (64 bit, unsigned). -/
def progress_iter (fmt_len : String → ℚ → Int) (s : ProgressState) (x : ProgressRecord) :
    ProgressState :=
  if s.locked = false ∧ x.flock_ok = false then s
  else
    let s1 : ProgressState := { s with locked := true }
    if (s1.last + 50 * USEC_PER_MSEC) % 2 ^ 64 > x.t then s1
    else
      let p := percent x.pass x.cur x.max
      let m := fmt_len x.device p
      { s1 with
        last := x.t
        clear := if m > s1.clear then m else s1.clear
        written := s1.written ++ [⟨x.t, x.device, p⟩] }

/-- The loop of `process_progress` over the records parsed before end of file
or the first malformed record. -/
def progress_loop (fmt_len : String → ℚ → Int) (s : ProgressState)
    (recs : List ProgressRecord) : ProgressState :=
  recs.foldl (progress_iter fmt_len) s

/-- Values of the locals at loop entry: `last = 0`, `locked = false`,
`clear = 0`. -/
def progress_init : ProgressState := ⟨0, false, 0, []⟩

/-- The invariant of the loop: the lines logged so far are pairwise at least
50ms apart, none is later than `last`, `last` is the time of the last line
logged (0 when there is none), and `last + 50ms` does not wrap. -/
def progress_inv (s : ProgressState) : Prop :=
  s.written.Pairwise (fun a b => a.t + 50 * USEC_PER_MSEC ≤ b.t) ∧
    (∀ ln ∈ s.written, ln.t ≤ s.last) ∧
    s.last = ((s.written.getLast?).map (fun ln => ln.t)).getD 0 ∧
    s.last + 50 * USEC_PER_MSEC < 2 ^ 64

/-- What a call of `process_progress` leaves behind: its return value, the
progress lines written, and the number of blanks of the final erase sequence
(0 when none is written). -/
structure ProgressResult where
  ret : Int
  written : List ProgressLine
  blanks : Nat
deriving DecidableEq

/-- Embedding of `process_progress(int fd)`.  `fdopen_errno` is `some e` when
`fdopen` fails with `errno = e`; `console_ok` tells whether
`fopen("/dev/console")` succeeds; `ENOMEM` is 12. -/
def process_progress (fmt_len : String → ℚ → Int) (fdopen_errno : Option Int)
    (console_ok : Bool) (recs : List ProgressRecord) : ProgressResult :=
  match fdopen_errno with
  | some e => ⟨-e, [], 0⟩
  | none =>
    if console_ok = false then ⟨-12, [], 0⟩
    else
      let s := progress_loop fmt_len progress_init recs
      ⟨0, s.written, if s.clear > 0 then s.clear.toNat else 0⟩

/-! ## Configuration globals -/

/-- The globals `arg_skip`, `arg_force`, `arg_show_progress`, `arg_repair`. -/
structure Args where
  arg_skip : Bool
  arg_force : Bool
  arg_show_progress : Bool
  arg_repair : String
deriving DecidableEq

/-- Initial values of the globals. -/
def Args.init : Args := ⟨false, false, false, "-a"⟩

/-- Embedding of `parse_proc_cmdline_item(key, value)`; `value = none` is a
NULL `value`, `sysv` tells whether `HAVE_SYSV_COMPAT` is defined.  Log output
is not modelled. -/
def parse_proc_cmdline_item (sysv : Bool) (a : Args) (key : String) (value : Option String) :
    Args :=
  if key = "fsck.mode" ∧ value.isSome then
    if value = some "auto" then { a with arg_force := false, arg_skip := false }
    else if value = some "force" then { a with arg_force := true }
    else if value = some "skip" then { a with arg_skip := true }
    else a
  else if key = "fsck.repair" ∧ value.isSome then
    if value = some "preen" then { a with arg_repair := "-a" }
    else if value = some "yes" then { a with arg_repair := "-y" }
    else if value = some "no" then { a with arg_repair := "-n" }
    else a
  else if sysv ∧ key = "fastboot" ∧ value.isNone then { a with arg_skip := true }
  else if sysv ∧ key = "forcefsck" ∧ value.isNone then { a with arg_force := true }
  else a

/-- Embedding of `test_files()`; the booleans are the results of the three
`access(..., F_OK) >= 0` tests and of `plymouth_running()`. -/
def test_files (sysv : Bool) (fastboot forcefsck show_status plymouth_running : Bool)
    (a : Args) : Args :=
  let a := if sysv ∧ fastboot then { a with arg_skip := true } else a
  let a := if sysv ∧ forcefsck then { a with arg_force := true } else a
  if show_status ∨ plymouth_running then { a with arg_show_progress := true } else a

/-! ## Console lookup -/

/-- The table `conspath`, without its NULL terminator. -/
def conspath : List String :=
  ["/proc/self/fd/0", "/dev/tty", "/dev/tty0", "/dev/vc/0", "/dev/systty", "/dev/console"]

/-- Open modes tried by `open_a_console`. -/
inductive OpenMode
  | O_RDWR
  | O_WRONLY
  | O_RDONLY
deriving DecidableEq

/-- The answers of the operating system used by the console lookup:
`open_` is `open(2)` (a descriptor or a negative value), `isatty` is
`isatty(3)`, `kdgkbtype fd` is `none` when `ioctl(fd, KDGKBTYPE, &arg)` fails
and `some arg` when it returns 0. -/
structure ConsoleEnv where
  open_ : String → OpenMode → Int
  isatty : Int → Bool
  kdgkbtype : Int → Option Int

/-- Keyboard type `KB_84` of `linux/kd.h`. -/
def KB_84 : Int := 1

/-- Keyboard type `KB_101` of `linux/kd.h`. -/
def KB_101 : Int := 2

/-- Embedding of `open_a_console(fnam)`. -/
def open_a_console (e : ConsoleEnv) (fnam : String) : Int :=
  let fd := e.open_ fnam .O_RDWR
  let fd := if fd < 0 then e.open_ fnam .O_WRONLY else fd
  let fd := if fd < 0 then e.open_ fnam .O_RDONLY else fd
  if fd < 0 then -1 else fd

/-- Embedding of `is_a_console(fd)`, as a boolean. -/
def is_a_console (e : ConsoleEnv) (fd : Int) : Bool :=
  e.isatty fd &&
    (match e.kdgkbtype fd with
     | none => false
     | some arg => arg == KB_101 || arg == KB_84)

/-- Result of `getfd`: it returns a descriptor (and may have stored a path
into `*cpath`), or it ends the process through `exit(code)`. -/
inductive GetfdResult
  | ret (fd : Int) (cpath : Option String)
  | exit (code : Int)
deriving DecidableEq

/-- The loop `for (i = 0; conspath[i]; i++)` of `getfd`. -/
def getfd_conspath (e : ConsoleEnv) : List String → Option (Int × String)
  | [] => none
  | p :: ps =>
    let fd := open_a_console e p
    if fd ≥ 0 ∧ is_a_console e fd = true then some (fd, p) else getfd_conspath e ps

/-- The loop `for (fd = 0; fd < 3; fd++)` of `getfd`. -/
def getfd_std (e : ConsoleEnv) : List Int → Option Int
  | [] => none
  | fd :: fds => if is_a_console e fd = true then some fd else getfd_std e fds

/-- Embedding of `getfd(fnam, cpath)`; `cpath0` is the value `*cpath` holds at
the call. -/
def getfd (e : ConsoleEnv) (fnam : Option String) (cpath0 : Option String) : GetfdResult :=
  match fnam with
  | some f =>
    let fd := open_a_console e f
    if fd ≥ 0 ∧ is_a_console e fd = true then .ret fd cpath0 else .exit 1
  | none =>
    match getfd_conspath e conspath with
    | some (fd, p) => .ret fd (some p)
    | none =>
      match getfd_std e [0, 1, 2] with
      | some fd => .ret fd cpath0
      | none => .exit (-1)

/-! ## main -/

/-- `EXIT_SUCCESS` of `stdlib.h`. -/
def EXIT_SUCCESS : Int := 0

/-- `EXIT_FAILURE` of `stdlib.h`. -/
def EXIT_FAILURE : Int := 1

/-- `ENOENT` of `errno.h`. -/
def ENOENT : Int := 2

/-- Modelled from the spec: the macro `SPECIAL_REBOOT_TARGET` of `special.h`
(not under `src/`), the unit name of the spec's "reboot target". -/
def SPECIAL_REBOOT_TARGET : String := "reboot.target"

/-- Modelled from the spec: the macro `SPECIAL_EMERGENCY_TARGET` of `special.h`
(not under `src/`), the unit name of the spec's "emergency target". -/
def SPECIAL_EMERGENCY_TARGET : String := "emergency.target"

/-- The values of `si_code` that `main` tells apart; `CLD_OTHER` stands for
every other value. -/
inductive SiCode
  | CLD_EXITED
  | CLD_KILLED
  | CLD_DUMPED
  | CLD_OTHER
deriving DecidableEq

/-- The two fields of `siginfo_t` that `main` reads.  `si_status` holds an
exit code (0..255) or a signal number, never a negative value, so it is a
`Nat`. -/
structure siginfo_t where
  si_code : SiCode
  si_status : Nat
deriving DecidableEq

/-- The C expression `~1` on a 32-bit `int`, as a mask on non-negative
values. -/
def NOT_1 : Nat := 0xFFFFFFFE

/-- What the operating system answers to one `fork()` and the
`wait_for_terminate()` that follows it: `fork` fails, or the child is created
and `wait_for_terminate` fails, or the child is created and terminates with
`status`.  A child whose `execv` fails calls `_exit(8)` and so shows up as
`terminated ⟨CLD_EXITED, 8⟩`. -/
inductive Attempt
  | fork_error
  | wait_error
  | terminated (status : siginfo_t)
deriving DecidableEq

/-- One entry of the array `cmdline`: not yet written, NULL, or a string. -/
inductive Slot
  | uninit
  | null
  | str (s : String)
deriving DecidableEq

/-- The statement `cmdline[i++] = v`.  A write past the end of the array is
dropped by `List.set`, the index still advances. -/
def put (ci : List Slot × Nat) (v : Slot) : List Slot × Nat :=
  (ci.1.set ci.2 v, ci.2 + 1)

/-- The buffer `dash_c` after `xsprintf(dash_c, "-C%i", fd)`. -/
def dash_c (fd : Int) : String := "-C" ++ toString fd

/-- Lines 347-375 of `main`: the assembly of `cmdline` (declared
`const char *cmdline[9]`) from `i = 0`.  `pipe1` is `progress_pipe[1]`.
Returns the array and the final value of `i`. -/
def build_cmdline (arg_repair : String) (root_directory arg_force : Bool) (pipe1 : Int)
    (device : String) : List Slot × Nat :=
  let ci : List Slot × Nat := (List.replicate 9 Slot.uninit, 0)
  let ci := put ci (.str "/sbin/fsck")
  let ci := put ci (.str arg_repair)
  let ci := put ci (.str "-T")
  let ci := if root_directory = false then put ci (.str "-M") else ci
  let ci := if arg_force = true then put ci (.str "-f") else ci
  let ci := if pipe1 ≥ 0 then put ci (.str (dash_c pipe1)) else ci
  let ci := put ci (.str device)
  put ci .null

/-- Lines 476-479 of `main` (in the child of the interactive stage):
`memset(cmdline, 0, sizeof(cmdline))` and two writes from `i = 0`. -/
def build_cmdline_y : List Slot × Nat :=
  let ci : List Slot × Nat := (List.replicate 9 Slot.null, 0)
  let ci := put ci (.str "/sbin/fsck")
  put ci (.str "-y")

/-- The argument vector `execv` reads from `cmdline`: the strings before the
first entry that is not a string (the NULL terminator). -/
def argv_of : List Slot → List String
  | .str s :: rest => s :: argv_of rest
  | _ => []

/-- Observable actions of `main`, in the order they happen.  `spawn argv` is a
successful `fork()` whose child calls `execv(argv[0], argv)`; `start_target` is
a call of `start_target`, the request sent to the system manager. -/
inductive Event
  | fork_failed
  | spawn (argv : List String)
  | process_progress (fd : Int)
  | touch (path : String)
  | start_target (target : String)
  | getfd
  | vt_activate (fd : Int)
  | freopen (cpath : Option String)
deriving DecidableEq

/-- Everything `main` reads from outside.  `items` are the kernel command line
items `parse_proc_cmdline` hands to `parse_proc_cmdline_item`; `attempt n` is
the answer to the `n`-th call of `fork()` (counted from 0) and the wait that
follows it; `pipe` is `none` when `pipe()` fails and the two descriptors
otherwise; `vt_activate fd` is the result of `ioctl(fd, VT_ACTIVATE, 8)`. -/
structure Env where
  argc : Nat
  argv1 : String
  sysv_compat : Bool
  items : List (String × Option String)
  fastboot : Bool
  forcefsck : Bool
  show_status : Bool
  plymouth_running : Bool
  udev_new_ok : Bool
  stat_ok : Bool
  st_dev_major : Nat
  udev_device_ok : Bool
  devnode : Option String
  id_fs_type : Option String
  fsck_exists : String → Int
  pipe : Option (Int × Int)
  attempt : Nat → Attempt
  cons : ConsoleEnv
  vt_activate : Int → Int

/-- Locals of `main` that no longer change once `check_again` is reached. -/
structure Locals where
  root_directory : Bool
  cmdline : List Slot
  i : Nat
deriving DecidableEq

/-- Locals of `main` that change after `check_again`, with two bookkeeping
fields: `nforks` counts the calls of `fork()` made so far and `trace` records
the actions performed so far. -/
structure State where
  firstcheck : Bool
  r : Int
  progress_pipe : Int × Int
  nforks : Nat
  trace : List Event
deriving DecidableEq

/-- The labels of `main`. -/
inductive Label
  | check_again
  | finish
  | console
  | finalcheck
deriving DecidableEq

/-- Result of running `main` from one label to the next jump: a `goto`, or
the process ends with the value passed to `return` or `exit`. -/
inductive Outcome
  | goto (l : Label) (s : State)
  | exit (code : Int) (s : State)
deriving DecidableEq

/-- Result of lines 254-375 of `main`: an early `return`, or arrival at
`check_again`. -/
inductive Setup
  | returned (code : Int)
  | ready (l : Locals) (s : State)
deriving DecidableEq

/-- The globals after `parse_proc_cmdline(parse_proc_cmdline_item)` and
`test_files()`. -/
def main_args (env : Env) : Args :=
  test_files env.sysv_compat env.fastboot env.forcefsck env.show_status env.plymouth_running
    (env.items.foldl (fun a kv => parse_proc_cmdline_item env.sysv_compat a kv.1 kv.2) Args.init)

/-- Lines 331-375 of `main`, once `device` and `root_directory` are known. -/
def main_type_and_cmdline (env : Env) (a : Args) (device : String) (root_directory : Bool) :
    Setup :=
  let r : Int :=
    match env.id_fs_type with
    | some type => env.fsck_exists type
    | none => EXIT_FAILURE
  if env.id_fs_type.isSome ∧ r = -ENOENT then .returned EXIT_SUCCESS
  else
    let progress_pipe : Option (Int × Int) :=
      if a.arg_show_progress = true then env.pipe else some (-1, -1)
    match progress_pipe with
    | none => .returned EXIT_FAILURE
    | some pp =>
      let ci := build_cmdline a.arg_repair root_directory a.arg_force pp.2 device
      .ready ⟨root_directory, ci.1, ci.2⟩ ⟨true, r, pp, 0, []⟩

/-- Lines 254-375 of `main`. -/
def main_setup (env : Env) : Setup :=
  if env.argc > 2 then .returned EXIT_FAILURE
  else
    let a := main_args env
    if a.arg_force = false ∧ a.arg_skip = true then .returned 0
    else if env.udev_new_ok = false then .returned EXIT_FAILURE
    else if env.argc > 1 then
      if env.stat_ok = false then .returned EXIT_FAILURE
      else if env.udev_device_ok = false then .returned EXIT_FAILURE
      else main_type_and_cmdline env a env.argv1 false
    else
      if env.stat_ok = false then .returned EXIT_FAILURE
      else if env.st_dev_major = 0 then .returned EXIT_SUCCESS
      else if env.udev_device_ok = false then .returned EXIT_FAILURE
      else
        match env.devnode with
        | none => .returned EXIT_FAILURE
        | some device => main_type_and_cmdline env a device true

/-- The statement `if (status.si_code == CLD_EXITED && (status.si_status & 1))
touch("/run/systemd/quotacheck");` (lines 440-441 and 532-534). -/
def touch_quotacheck (status : siginfo_t) (s : State) : State :=
  if status.si_code = .CLD_EXITED ∧ status.si_status &&& 1 ≠ 0 then
    { s with trace := s.trace ++ [.touch "/run/systemd/quotacheck"] }
  else s

/-- Lines 390-395 of `main`, the parent after a successful `fork()`: the
event of the spawn, `progress_pipe[1] = safe_close(...)` (which yields -1),
and the call of `process_progress` when the read end is open. -/
def check_again_parent (l : Locals) (s : State) : State :=
  let s : State :=
    { s with nforks := s.nforks + 1, trace := s.trace ++ [.spawn (argv_of l.cmdline)] }
  let s : State := { s with progress_pipe := (s.progress_pipe.1, -1) }
  if s.progress_pipe.1 ≥ 0 then
    { s with
      trace := s.trace ++ [.process_progress s.progress_pipe.1]
      progress_pipe := (-1, s.progress_pipe.2) }
  else s

/-- Lines 403-441 of `main`: the decision on the status of an unattended
attempt. -/
def check_again_status (l : Locals) (s : State) (status : siginfo_t) : Outcome :=
  if status.si_code ≠ .CLD_EXITED ∨ status.si_status &&& NOT_1 ≠ 0 then
    if status.si_code = .CLD_EXITED ∧ status.si_status &&& 2 ≠ 0 ∧ l.root_directory = true then
      if s.firstcheck = true then .goto .check_again { s with firstcheck := false }
      else .goto .console s
    else if status.si_code = .CLD_EXITED ∧ status.si_status &&& 6 ≠ 0 then
      if s.firstcheck = true then .goto .check_again { s with firstcheck := false }
      else .goto .console s
    else .goto .finish (touch_quotacheck status { s with r := EXIT_SUCCESS })
  else .goto .finish (touch_quotacheck status { s with r := EXIT_SUCCESS })

/-- Lines 377-441 of `main`, from the label `check_again` to the next jump. -/
def check_again (env : Env) (l : Locals) (s : State) : Outcome :=
  match env.attempt s.nforks with
  | .fork_error =>
    .goto .finish { s with nforks := s.nforks + 1, trace := s.trace ++ [.fork_failed] }
  | .wait_error => .goto .finish (check_again_parent l s)
  | .terminated status => check_again_status l (check_again_parent l s) status

/-- Lines 443-446 of `main`: `safe_close_pair(progress_pipe); return r;`. -/
def finish (s : State) : Outcome :=
  .exit s.r { s with progress_pipe := (-1, -1) }

/-- Lines 448-468 of `main`, from the label `console` to `finalcheck`. -/
def console (env : Env) (s : State) : Outcome :=
  let s : State := { s with r := EXIT_FAILURE, trace := s.trace ++ [.getfd] }
  match getfd env.cons none none with
  | .exit code => .exit code s
  | .ret fd cpath =>
    if fd < 0 then .exit (-1) s
    else
      let s : State := { s with trace := s.trace ++ [.vt_activate fd] }
      if env.vt_activate fd ≠ 0 then .exit 1 s
      else
        .goto .finalcheck
          { s with trace := s.trace ++ [.freopen cpath], firstcheck := true }

/-- Lines 489-535 of `main`: the decision on the status of an interactive
attempt. -/
def finalcheck_status (s : State) (status : siginfo_t) : Outcome :=
  if status.si_code ≠ .CLD_EXITED ∨ status.si_status &&& NOT_1 ≠ 0 then
    if status.si_code = .CLD_EXITED ∧ status.si_status &&& 2 ≠ 0 then
      if s.firstcheck = true then .goto .finalcheck { s with firstcheck := false }
      else
        let s : State := { s with trace := s.trace ++ [.start_target SPECIAL_REBOOT_TARGET] }
        .exit s.r (touch_quotacheck status s)
    else if status.si_code = .CLD_EXITED ∧ status.si_status &&& 4 ≠ 0 then
      let s : State := { s with trace := s.trace ++ [.start_target SPECIAL_EMERGENCY_TARGET] }
      .exit s.r (touch_quotacheck status s)
    else .exit EXIT_SUCCESS (touch_quotacheck status { s with r := EXIT_SUCCESS })
  else .exit EXIT_SUCCESS (touch_quotacheck status { s with r := EXIT_SUCCESS })

/-- The parent of the interactive stage after a successful `fork()`. -/
def finalcheck_parent (s : State) : State :=
  { s with nforks := s.nforks + 1, trace := s.trace ++ [.spawn (argv_of build_cmdline_y.1)] }

/-- Lines 469-535 of `main`, from the label `finalcheck` to the next jump or
`return`. -/
def finalcheck (env : Env) (s : State) : Outcome :=
  match env.attempt s.nforks with
  | .fork_error =>
    .exit s.r { s with nforks := s.nforks + 1, trace := s.trace ++ [.fork_failed] }
  | .wait_error => .exit s.r (finalcheck_parent s)
  | .terminated status => finalcheck_status (finalcheck_parent s) status

/-- One run of `main` from a label to the next jump. -/
def step (env : Env) (l : Locals) : Label → State → Outcome
  | .check_again, s => check_again env l s
  | .finish, s => finish s
  | .console, s => console env s
  | .finalcheck, s => finalcheck env s

/-- Follow the jumps of `main` from a label for at most `fuel` blocks; `none`
when the fuel runs out before the process ends. -/
def run (env : Env) (l : Locals) : Nat → Label → State → Option (Int × State)
  | 0, _, _ => none
  | fuel + 1, lab, s =>
    match step env l lab s with
    | .exit code s1 => some (code, s1)
    | .goto lab1 s1 => run env l fuel lab1 s1

/-- Embedding of `main`: the value passed to `return` or `exit` and the
final state, `none` when the fuel runs out. -/
def main (env : Env) (fuel : Nat) : Option (Int × List Event) :=
  match main_setup env with
  | .returned code => some (code, [])
  | .ready l s => (run env l fuel .check_again s).map (fun q => (q.1, q.2.trace))

/-- The exit status the parent of the process sees: the low 8 bits of the
value passed to `return` from `main` or to `exit`. -/
def exit_status (code : Int) : Int := code % 256

/-- Number of calls of `fork()` recorded in a trace. -/
def fork_calls : List Event → Nat
  | [] => 0
  | .fork_failed :: es => fork_calls es + 1
  | .spawn _ :: es => fork_calls es + 1
  | _ :: es => fork_calls es

/-- The argument vectors spawned in a trace, in order. -/
def spawns : List Event → List (List String)
  | [] => []
  | .spawn argv :: es => argv :: spawns es
  | _ :: es => spawns es

/-- The targets requested through `start_target` in a trace, in order. -/
def targets : List Event → List String
  | [] => []
  | .start_target t :: es => t :: targets es
  | _ :: es => targets es

/-- An unattended attempt's status sends `main` to the retry or to the
console: a normal exit with bit 1 set on the root file system, or with a bit
of mask 6 set. -/
def unattended_failed (root_directory : Bool) (a : Attempt) : Prop :=
  ∃ st : Nat, a = .terminated ⟨.CLD_EXITED, st⟩ ∧
    ((st &&& 2 ≠ 0 ∧ root_directory = true) ∨ st &&& 6 ≠ 0)

/-! ## Concrete runs used in the examples below -/

/-- A console environment in which only "/dev/tty0" can be opened (as
descriptor 5) and is a terminal with a `KB_101` keyboard. -/
def cons_tty0 : ConsoleEnv :=
  ⟨fun p _ => if p = "/dev/tty0" then 5 else -1, fun fd => fd == 5, fun _ => some 2⟩

/-- A run of `main` without arguments on a machine whose root directory is on
"/dev/sda1" (major number 8): no kernel command line item, no progress
display, `ID_FS_TYPE` is `ty`, every `fsck.<type>` helper exists, the console
is `cons_tty0`, and `fork()` and the wait are answered by `att`. -/
def env_root (ty : Option String) (att : Nat → Attempt) : Env :=
  ⟨1, "", false, [], false, false, false, false, true, true, 8, true,
    some "/dev/sda1", ty, fun _ => 0, none, att, cons_tty0, fun _ => 0⟩

/-- The locals `main` reaches `check_again` with in `env_root`. -/
def locals_root : Locals :=
  ⟨true, (build_cmdline "-a" true false (-1) "/dev/sda1").1, 5⟩

/-- The argument vector of the unattended attempts in `env_root`. -/
def argv_root : List String := ["/sbin/fsck", "-a", "-T", "/dev/sda1"]

/-- The state `main` reaches `check_again` with in `env_root none`. -/
def state_root : State := ⟨true, 1, (-1, -1), 0, []⟩

/-- The state `main` reaches `finalcheck` with in `env_root` after two failed
unattended attempts. -/
def state_console : State :=
  ⟨true, 1, (-1, -1), 2,
    [.spawn argv_root, .spawn argv_root, .getfd, .vt_activate 5, .freopen (some "/dev/tty0")]⟩

/-- Three progress records of pass 1 on "/dev/sda1", read with the console
lock available at clock values 100000, 120000 and 160000 microseconds. -/
def recs_example : List ProgressRecord :=
  [⟨1, 0, 10, "/dev/sda1", true, 100000⟩, ⟨1, 1, 10, "/dev/sda1", true, 120000⟩,
    ⟨1, 5, 10, "/dev/sda1", true, 160000⟩]

end Fsck

namespace Fsck

theorem percent_max_zero (pass : Int) (cur : Nat) (h : 0 < pass) :
    percent pass cur 0 = 100 := by
  unfold percent
  simp [not_le.mpr h]

/-- On the interpolating branch the table entries are ordered. -/
theorem pass_table_step (k : Nat) (h1 : 1 ≤ k) (h5 : k ≤ 5) :
    (0 : ℚ) ≤ (pass_table.getD (k - 1) 0 : ℚ) ∧
      (pass_table.getD (k - 1) 0 : ℚ) ≤ (pass_table.getD k 0 : ℚ) := by
  interval_cases k <;> simp [pass_table] <;> norm_num

theorem percent_interp (pass : Int) (cur max : Nat) (h1 : 1 ≤ pass) (h5 : pass ≤ 5)
    (hmax : 0 < max) :
    percent pass cur max =
      (pass_table.getD (pass.toNat - 1) 0 : ℚ) +
        ((pass_table.getD pass.toNat 0 : ℚ) - (pass_table.getD (pass.toNat - 1) 0 : ℚ)) *
          (cur : ℚ) / (max : ℚ) := by
  unfold percent
  have hp : ¬ pass ≤ 0 := by omega
  have hl : ¬ (pass.toNat ≥ pass_table.length ∨ max = 0) := by
    simp only [pass_table, List.length]
    omega
  rw [if_neg hp, if_neg hl]

/-- C5 as stated fails: `pass = 1`, `cur = 0`, `max = 0` satisfy `cur <= max`,
but the guard on `max == 0` returns 100, which is above `pass_table[1] = 70`. -/
theorem percent_bound_fails_max_zero :
    (1 : Int) ≤ 1 ∧ (1 : Int) ≤ 5 ∧ (0 : Nat) ≤ 0 ∧ percent 1 0 0 = 100 ∧
      ¬ percent 1 0 0 ≤ (pass_table.getD (1 : Int).toNat 0 : ℚ) := by
  decide

/-- C5 (amended): for every pass in 1..5 and `cur <= max`, `percent` is
non-decreasing in `cur` (for every `max`, zero included), it is 100 when
`max == 0`, and when `max > 0` it lies within
`[pass_table[pass-1], pass_table[pass]]`. -/
theorem percent_bounds_mono (pass : Int) (cur1 cur2 max : Nat)
    (h1 : 1 ≤ pass) (h5 : pass ≤ 5) (h12 : cur1 ≤ cur2) (h2m : cur2 ≤ max) :
    percent pass cur1 max ≤ percent pass cur2 max ∧
      (max = 0 → percent pass cur2 max = 100) ∧
      (0 < max →
        (pass_table.getD (pass.toNat - 1) 0 : ℚ) ≤ percent pass cur2 max ∧
          percent pass cur2 max ≤ (pass_table.getD pass.toNat 0 : ℚ)) := by
  have hk1 : 1 ≤ pass.toNat := by omega
  have hk5 : pass.toNat ≤ 5 := by omega
  obtain ⟨_, hstep⟩ := pass_table_step pass.toNat hk1 hk5
  have hd : (0 : ℚ) ≤ (pass_table.getD pass.toNat 0 : ℚ) -
      (pass_table.getD (pass.toNat - 1) 0 : ℚ) := by linarith
  refine ⟨?_, ?_, ?_⟩
  · rcases Nat.eq_zero_or_pos max with h0 | hpos
    · subst h0
      rw [percent_max_zero pass cur1 (by omega), percent_max_zero pass cur2 (by omega)]
    · rw [percent_interp pass cur1 max h1 h5 hpos, percent_interp pass cur2 max h1 h5 hpos]
      have hq : (0 : ℚ) < (max : ℚ) := by exact_mod_cast hpos
      have hc : (cur1 : ℚ) ≤ (cur2 : ℚ) := by exact_mod_cast h12
      have : ((pass_table.getD pass.toNat 0 : ℚ) - (pass_table.getD (pass.toNat - 1) 0 : ℚ)) *
          (cur1 : ℚ) / (max : ℚ) ≤
          ((pass_table.getD pass.toNat 0 : ℚ) - (pass_table.getD (pass.toNat - 1) 0 : ℚ)) *
          (cur2 : ℚ) / (max : ℚ) := by
        apply div_le_div_of_nonneg_right _ hq.le
        exact mul_le_mul_of_nonneg_left hc hd
      linarith
  · intro h0
    subst h0
    exact percent_max_zero pass cur2 (by omega)
  · intro hpos
    rw [percent_interp pass cur2 max h1 h5 hpos]
    have hq : (0 : ℚ) < (max : ℚ) := by exact_mod_cast hpos
    have hc0 : (0 : ℚ) ≤ (cur2 : ℚ) := by exact_mod_cast Nat.zero_le cur2
    have hcm : (cur2 : ℚ) ≤ (max : ℚ) := by exact_mod_cast h2m
    have hfrac0 : (0 : ℚ) ≤ ((pass_table.getD pass.toNat 0 : ℚ) -
        (pass_table.getD (pass.toNat - 1) 0 : ℚ)) * (cur2 : ℚ) / (max : ℚ) :=
      div_nonneg (mul_nonneg hd hc0) hq.le
    have hfrac1 : ((pass_table.getD pass.toNat 0 : ℚ) -
        (pass_table.getD (pass.toNat - 1) 0 : ℚ)) * (cur2 : ℚ) / (max : ℚ) ≤
        (pass_table.getD pass.toNat 0 : ℚ) - (pass_table.getD (pass.toNat - 1) 0 : ℚ) := by
      rw [div_le_iff₀ hq]
      exact mul_le_mul_of_nonneg_left hcm hd
    constructor <;> linarith

/-- Pass 2 with `cur` 3 and 7 out of `max` 10. -/
theorem percent_bounds_mono_witness :
    percent 2 3 10 ≤ percent 2 7 10 ∧
      ((10 : Nat) = 0 → percent 2 7 10 = 100) ∧
      (0 < 10 →
        (pass_table.getD ((2 : Int).toNat - 1) 0 : ℚ) ≤ percent 2 7 10 ∧
          percent 2 7 10 ≤ (pass_table.getD (2 : Int).toNat 0 : ℚ)) :=
  percent_bounds_mono 2 3 7 10 (by decide) (by decide) (by decide) (by decide)

end Fsck

namespace Fsck

/-! ## Helper lemmas on the blocks of `main` -/

theorem and_not1_ne_zero (st m : Nat) (hm : NOT_1 &&& m = m) (h : st &&& m ≠ 0) :
    st &&& NOT_1 ≠ 0 := by
  intro h0
  apply h
  have e : st &&& m = (st &&& NOT_1) &&& m := by rw [Nat.and_assoc, hm]
  rw [e, h0, Nat.zero_and]

theorem run_succ (env : Env) (l : Locals) (fuel : Nat) (lab : Label) (s : State) :
    run env l (fuel + 1) lab s =
      match step env l lab s with
      | .exit code s1 => some (code, s1)
      | .goto lab1 s1 => run env l fuel lab1 s1 := rfl

theorem run_finish (env : Env) (l : Locals) (fuel : Nat) (s : State) :
    run env l (fuel + 1) .finish s = some (s.r, { s with progress_pipe := (-1, -1) }) := rfl

theorem parent_trace (l : Locals) (s : State) :
    (check_again_parent l s).trace =
      s.trace ++ [.spawn (argv_of l.cmdline)] ++
        (if s.progress_pipe.1 ≥ 0 then [.process_progress s.progress_pipe.1] else []) := by
  unfold check_again_parent
  by_cases h : s.progress_pipe.1 ≥ 0 <;> simp [h]

theorem parent_nforks (l : Locals) (s : State) :
    (check_again_parent l s).nforks = s.nforks + 1 := by
  unfold check_again_parent
  by_cases h : s.progress_pipe.1 ≥ 0 <;> simp [h]

theorem parent_firstcheck (l : Locals) (s : State) :
    (check_again_parent l s).firstcheck = s.firstcheck := by
  unfold check_again_parent
  by_cases h : s.progress_pipe.1 ≥ 0 <;> simp [h]

theorem parent_r (l : Locals) (s : State) :
    (check_again_parent l s).r = s.r := by
  unfold check_again_parent
  by_cases h : s.progress_pipe.1 ≥ 0 <;> simp [h]

theorem touch_trace (status : siginfo_t) (s : State) :
    (touch_quotacheck status s).trace =
      s.trace ++ (if status.si_code = .CLD_EXITED ∧ status.si_status &&& 1 ≠ 0 then
        [.touch "/run/systemd/quotacheck"] else []) := by
  unfold touch_quotacheck
  split <;> simp

theorem touch_nforks (status : siginfo_t) (s : State) :
    (touch_quotacheck status s).nforks = s.nforks := by
  unfold touch_quotacheck
  split <;> rfl

theorem touch_r (status : siginfo_t) (s : State) :
    (touch_quotacheck status s).r = s.r := by
  unfold touch_quotacheck
  split <;> rfl

theorem argv_y : argv_of build_cmdline_y.1 = ["/sbin/fsck", "-y"] := by decide

end Fsck

namespace Fsck

/-! ## Command construction -/

/-- C7: for every repair flag, target and pipe descriptor, the assembly of
`cmdline` writes at most 9 slots, the slots written are "/sbin/fsck", the
repair flag, "-T", then "-M" when the target is not the root directory, "-f"
when `arg_force`, "-C" followed by the decimal descriptor when
`progress_pipe[1] >= 0`, the device and the NULL terminator, in that order, and
`execv` reads exactly these strings as its argument vector. -/
theorem build_cmdline_layout (arg_repair device : String) (root_directory arg_force : Bool)
    (pipe1 : Int) :
    (build_cmdline arg_repair root_directory arg_force pipe1 device).2 ≤ 9 ∧
      (build_cmdline arg_repair root_directory arg_force pipe1 device).1.length = 9 ∧
      (build_cmdline arg_repair root_directory arg_force pipe1 device).1.take
          (build_cmdline arg_repair root_directory arg_force pipe1 device).2 =
        (["/sbin/fsck", arg_repair, "-T"] ++
          (if root_directory = false then ["-M"] else []) ++
          (if arg_force = true then ["-f"] else []) ++
          (if pipe1 ≥ 0 then ["-C" ++ toString pipe1] else []) ++
          [device]).map Slot.str ++ [Slot.null] ∧
      argv_of (build_cmdline arg_repair root_directory arg_force pipe1 device).1 =
        ["/sbin/fsck", arg_repair, "-T"] ++
          (if root_directory = false then ["-M"] else []) ++
          (if arg_force = true then ["-f"] else []) ++
          (if pipe1 ≥ 0 then ["-C" ++ toString pipe1] else []) ++
          [device] := by
  by_cases hp : pipe1 ≥ 0 <;> cases root_directory <;> cases arg_force <;>
    simp [build_cmdline, put, List.replicate, argv_of, dash_c, hp]

/-- The array `main` arrives with at `check_again` is the one `build_cmdline`
assembles from the globals, the target and `progress_pipe[1]`. -/
theorem main_setup_cmdline (env : Env) (l : Locals) (s : State)
    (h : main_setup env = .ready l s) :
    ∃ device : String,
      (l.cmdline, l.i) =
        build_cmdline (main_args env).arg_repair l.root_directory (main_args env).arg_force
          s.progress_pipe.2 device ∧
      s.firstcheck = true ∧ s.nforks = 0 ∧ s.trace = [] ∧
      (env.id_fs_type = none → s.r = EXIT_FAILURE) := by
  have key : ∀ (device : String) (root : Bool),
      main_type_and_cmdline env (main_args env) device root = .ready l s →
      (l.cmdline, l.i) =
        build_cmdline (main_args env).arg_repair l.root_directory (main_args env).arg_force
          s.progress_pipe.2 device ∧
      s.firstcheck = true ∧ s.nforks = 0 ∧ s.trace = [] ∧
      (env.id_fs_type = none → s.r = EXIT_FAILURE) := by
    intro device root hk
    unfold main_type_and_cmdline at hk
    simp only at hk
    split at hk
    · cases hk
    · split at hk
      · cases hk
      · rename_i pp hpp
        injection hk with hl hs
        subst hl
        subst hs
        refine ⟨rfl, rfl, rfl, rfl, ?_⟩
        intro hty
        simp [hty]
  unfold main_setup at h
  simp only at h
  repeat' split at h
  all_goals first
    | cases h
    | exact ⟨_, key _ _ h⟩

end Fsck

namespace Fsck

/-! ## The unattended stage -/

theorem check_again_terminated (env : Env) (l : Locals) (s : State) (status : siginfo_t)
    (h : env.attempt s.nforks = .terminated status) :
    check_again env l s = check_again_status l (check_again_parent l s) status := by
  unfold check_again
  rw [h]

theorem finalcheck_terminated (env : Env) (s : State) (status : siginfo_t)
    (h : env.attempt s.nforks = .terminated status) :
    finalcheck env s = finalcheck_status (finalcheck_parent s) status := by
  unfold finalcheck
  rw [h]

/-- A status outside the retry conditions of the unattended stage sends `main`
to `finish` with `r = EXIT_SUCCESS`. -/
theorem check_again_status_ignored (l : Locals) (s : State) (status : siginfo_t)
    (h2 : ¬ (status.si_code = .CLD_EXITED ∧ status.si_status &&& 2 ≠ 0 ∧ l.root_directory = true))
    (h6 : ¬ (status.si_code = .CLD_EXITED ∧ status.si_status &&& 6 ≠ 0)) :
    check_again_status l s status =
      .goto .finish (touch_quotacheck status { s with r := EXIT_SUCCESS }) := by
  unfold check_again_status
  rw [if_neg h2, if_neg h6]
  split <;> rfl

/-- A status inside the retry conditions of the unattended stage sends `main`
back to `check_again` on the first attempt and to `console` on the second. -/
theorem check_again_status_failed (l : Locals) (s : State) (st : Nat)
    (h : (st &&& 2 ≠ 0 ∧ l.root_directory = true) ∨ st &&& 6 ≠ 0) :
    check_again_status l s ⟨.CLD_EXITED, st⟩ =
      if s.firstcheck = true then .goto .check_again { s with firstcheck := false }
      else .goto .console s := by
  have hn : st &&& NOT_1 ≠ 0 := by
    rcases h with ⟨h2, _⟩ | h6
    · exact and_not1_ne_zero st 2 (by decide) h2
    · exact and_not1_ne_zero st 6 (by decide) h6
  unfold check_again_status
  rw [if_pos (Or.inr hn)]
  by_cases h2 : st &&& 2 ≠ 0 ∧ l.root_directory = true
  · rw [if_pos ⟨rfl, h2⟩]
  · have h6 : st &&& 6 ≠ 0 := by
      rcases h with h | h
      · exact absurd h h2
      · exact h
    rw [if_neg (fun hh => h2 hh.2), if_pos ⟨rfl, h6⟩]

/-- C6: an unattended attempt that exits normally with status 0 or 1 carries
none of the bits 1, 2 (masks 2, 4, 6) and nothing besides bit 0; `main` spawns
nothing more, does not reach the console stage, requests no target, touches
the quotacheck marker exactly when the status is 1, and exits with code 0. -/
theorem unattended_success (env : Env) (l : Locals) (s : State) (st fuel : Nat)
    (hatt : env.attempt s.nforks = .terminated ⟨.CLD_EXITED, st⟩)
    (hst : st = 0 ∨ st = 1) :
    st &&& 2 = 0 ∧ st &&& 4 = 0 ∧ st &&& 6 = 0 ∧ st &&& NOT_1 = 0 ∧
      ∃ sf : State, run env l (fuel + 2) .check_again s = some (0, sf) ∧
        sf.trace = s.trace ++ [.spawn (argv_of l.cmdline)] ++
          (if s.progress_pipe.1 ≥ 0 then [.process_progress s.progress_pipe.1] else []) ++
          (if st = 1 then [.touch "/run/systemd/quotacheck"] else []) ∧
        sf.nforks = s.nforks + 1 := by
  have hb : st &&& 2 = 0 ∧ st &&& 4 = 0 ∧ st &&& 6 = 0 ∧ st &&& NOT_1 = 0 := by
    rcases hst with rfl | rfl <;> decide
  obtain ⟨b2, b4, b6, bn⟩ := hb
  refine ⟨b2, b4, b6, bn, ?_⟩
  have hstep : check_again env l s = .goto .finish
      (touch_quotacheck ⟨.CLD_EXITED, st⟩ { (check_again_parent l s) with r := EXIT_SUCCESS }) := by
    rw [check_again_terminated env l s _ hatt]
    exact check_again_status_ignored l _ _ (fun h => h.2.1 b2) (fun h => h.2 b6)
  have hrun : run env l (fuel + 2) .check_again s = some (0,
      { (touch_quotacheck ⟨.CLD_EXITED, st⟩
          { (check_again_parent l s) with r := EXIT_SUCCESS }) with
        progress_pipe := (-1, -1) }) := by
    rw [run_succ]
    simp only [step]
    rw [hstep]
    simp only
    rw [run_finish, touch_r]
    rfl
  refine ⟨_, hrun, ?_, ?_⟩
  · simp only [touch_trace, parent_trace]
    rcases hst with rfl | rfl <;> simp
  · simp only [touch_nforks, parent_nforks]

/-- A first attempt on the root file system that exits with status 1. -/
theorem unattended_success_witness :
    ∃ sf : State,
      run (env_root none (fun _ => .terminated ⟨.CLD_EXITED, 1⟩)) locals_root 2
          .check_again state_root = some (0, sf) ∧
        sf.trace = [.spawn argv_root, .touch "/run/systemd/quotacheck"] ∧
        sf.nforks = 1 :=
  (unattended_success (env_root none (fun _ => .terminated ⟨.CLD_EXITED, 1⟩)) locals_root
    state_root 1 0 rfl (Or.inr rfl)).2.2.2.2

end Fsck

namespace Fsck

/-- The state `main` reaches `check_again` with in `env_root`. -/
theorem env_root_setup (ty : Option String) (att : Nat → Attempt) :
    main_setup (env_root ty att) =
      .ready locals_root ⟨true, (match ty with | some _ => 0 | none => 1), (-1, -1), 0, []⟩ := by
  cases ty <;> rfl

/-- C9 as stated fails: a first unattended attempt killed by signal 9 makes
`main` return 0, the exit status of success, not of failure. -/
theorem killed_attempt_exits_zero :
    main (env_root none (fun _ => .terminated ⟨.CLD_KILLED, 9⟩)) 5 =
        some (0, [.spawn argv_root]) ∧
      exit_status 0 = 0 := by
  decide

/-- C9 (amended): an attempt terminated by a signal or a core dump is an
ignored error at both stages: nothing more is spawned, no target is requested,
the quotacheck marker is not touched, and `main` returns `EXIT_SUCCESS`, so the
exit status is 0 (it does not report failure). -/
theorem signal_is_ignored (env : Env) (l : Locals) (s : State) (code : SiCode) (sig fuel : Nat)
    (hcode : code = .CLD_KILLED ∨ code = .CLD_DUMPED)
    (hatt : env.attempt s.nforks = .terminated ⟨code, sig⟩) :
    (∃ sf : State, run env l (fuel + 2) .check_again s = some (0, sf) ∧
        sf.trace = s.trace ++ [.spawn (argv_of l.cmdline)] ++
          (if s.progress_pipe.1 ≥ 0 then [.process_progress s.progress_pipe.1] else []) ∧
        sf.nforks = s.nforks + 1) ∧
      (∃ sf : State, run env l (fuel + 1) .finalcheck s = some (0, sf) ∧
        sf.trace = s.trace ++ [.spawn ["/sbin/fsck", "-y"]] ∧
        sf.nforks = s.nforks + 1) ∧
      exit_status 0 = 0 := by
  have hne : code ≠ .CLD_EXITED := by
    rcases hcode with rfl | rfl <;> decide
  refine ⟨?_, ?_, by decide⟩
  · have hstep : check_again env l s = .goto .finish
        (touch_quotacheck ⟨code, sig⟩ { (check_again_parent l s) with r := EXIT_SUCCESS }) := by
      rw [check_again_terminated env l s _ hatt]
      exact check_again_status_ignored l _ _ (fun h => hne h.1) (fun h => hne h.1)
    have hrun : run env l (fuel + 2) .check_again s = some (0,
        { (touch_quotacheck ⟨code, sig⟩
            { (check_again_parent l s) with r := EXIT_SUCCESS }) with
          progress_pipe := (-1, -1) }) := by
      rw [run_succ]
      simp only [step]
      rw [hstep]
      simp only
      rw [run_finish, touch_r]
      rfl
    refine ⟨_, hrun, ?_, ?_⟩
    · simp [touch_trace, parent_trace, hne]
    · simp only [touch_nforks, parent_nforks]
  · have hstep : finalcheck env s = .exit EXIT_SUCCESS
        (touch_quotacheck ⟨code, sig⟩ { (finalcheck_parent s) with r := EXIT_SUCCESS }) := by
      rw [finalcheck_terminated env s _ hatt]
      unfold finalcheck_status
      simp [hne]
    have hrun : run env l (fuel + 1) .finalcheck s = some (0,
        touch_quotacheck ⟨code, sig⟩ { (finalcheck_parent s) with r := EXIT_SUCCESS }) := by
      rw [run_succ]
      simp only [step]
      rw [hstep]
      rfl
    refine ⟨_, hrun, ?_, ?_⟩
    · simp [touch_trace, finalcheck_parent, argv_y, hne]
    · simp [touch_nforks, finalcheck_parent]

/-- An attempt that dumps core on signal 11, at either stage. -/
theorem signal_is_ignored_witness :
    (∃ sf : State,
        run (env_root none (fun _ => .terminated ⟨.CLD_DUMPED, 11⟩)) locals_root 2
            .check_again state_root = some (0, sf) ∧
          sf.trace = [.spawn argv_root] ∧ sf.nforks = 1) ∧
      (∃ sf : State,
        run (env_root none (fun _ => .terminated ⟨.CLD_DUMPED, 11⟩)) locals_root 1
            .finalcheck state_root = some (0, sf) ∧
          sf.trace = [.spawn ["/sbin/fsck", "-y"]] ∧ sf.nforks = 1) ∧
      exit_status 0 = 0 :=
  signal_is_ignored (env_root none (fun _ => .terminated ⟨.CLD_DUMPED, 11⟩)) locals_root
    state_root .CLD_DUMPED 11 0 (Or.inr rfl) rfl

end Fsck

namespace Fsck

/-! ## Shape of one pass through each block -/

theorem fork_calls_append (a b : List Event) :
    fork_calls (a ++ b) = fork_calls a + fork_calls b := by
  induction a with
  | nil => simp [fork_calls]
  | cons e es ih => cases e <;> simp [fork_calls, ih] <;> omega

theorem spawns_append (a b : List Event) : spawns (a ++ b) = spawns a ++ spawns b := by
  induction a with
  | nil => simp [spawns]
  | cons e es ih => cases e <;> simp [spawns, ih]

theorem targets_append (a b : List Event) : targets (a ++ b) = targets a ++ targets b := by
  induction a with
  | nil => simp [targets]
  | cons e es ih => cases e <;> simp [targets, ih]

theorem run_goto (env : Env) (l : Locals) (fuel : Nat) (lab lab1 : Label) (s s1 : State)
    (h : step env l lab s = .goto lab1 s1) :
    run env l (fuel + 1) lab s = run env l fuel lab1 s1 := by
  rw [run_succ, h]

theorem run_exit (env : Env) (l : Locals) (fuel : Nat) (lab : Label) (s s1 : State) (code : Int)
    (h : step env l lab s = .exit code s1) :
    run env l (fuel + 1) lab s = some (code, s1) := by
  rw [run_succ, h]

/-- The events a successful unattended spawn adds to the trace. -/
theorem parent_events (l : Locals) (s : State) :
    ∃ evs : List Event, (check_again_parent l s).trace = s.trace ++ evs ∧
      fork_calls evs = 1 ∧ spawns evs = [argv_of l.cmdline] ∧ targets evs = [] ∧
      Event.getfd ∉ evs := by
  refine ⟨[.spawn (argv_of l.cmdline)] ++
    (if s.progress_pipe.1 ≥ 0 then [.process_progress s.progress_pipe.1] else []), ?_, ?_, ?_, ?_, ?_⟩
  · rw [parent_trace, List.append_assoc]
  all_goals by_cases h : s.progress_pipe.1 ≥ 0 <;> simp [h, fork_calls, spawns, targets]

/-- One pass through `check_again`: it always ends in a jump, after exactly one
call of `fork()`; it requests no target and does not touch the console; it
jumps back to `check_again` only from `firstcheck = true`, clearing it, and to
`console` only from `firstcheck = false`, in both cases on a failed status. -/
theorem check_again_shape (env : Env) (l : Locals) (s : State) :
    ∃ (lab : Label) (s2 : State) (evs : List Event),
      check_again env l s = .goto lab s2 ∧ s2.trace = s.trace ++ evs ∧
      s2.nforks = s.nforks + 1 ∧ fork_calls evs = 1 ∧ targets evs = [] ∧
      Event.getfd ∉ evs ∧
      spawns evs = (if env.attempt s.nforks = .fork_error then [] else [argv_of l.cmdline]) ∧
      (lab = .finish ∨
        (unattended_failed l.root_directory (env.attempt s.nforks) ∧ s2.r = s.r ∧
          ((lab = .check_again ∧ s.firstcheck = true ∧ s2.firstcheck = false) ∨
            (lab = .console ∧ s.firstcheck = false ∧ s2.firstcheck = false)))) := by
  obtain ⟨pev, hpt, hpf, hps, hpg, hpc⟩ := parent_events l s
  cases hatt : env.attempt s.nforks with
  | fork_error =>
    refine ⟨.finish, { s with nforks := s.nforks + 1, trace := s.trace ++ [.fork_failed] },
      [.fork_failed], ?_, rfl, rfl, rfl, rfl, by simp, by simp [spawns], Or.inl rfl⟩
    unfold check_again
    rw [hatt]
  | wait_error =>
    refine ⟨.finish, check_again_parent l s, pev, ?_, hpt, parent_nforks l s, hpf, hpg, hpc,
      by simp [hps], Or.inl rfl⟩
    unfold check_again
    rw [hatt]
  | terminated status =>
    rw [check_again_terminated env l s status hatt]
    by_cases hf : status.si_code = .CLD_EXITED ∧
        ((status.si_status &&& 2 ≠ 0 ∧ l.root_directory = true) ∨ status.si_status &&& 6 ≠ 0)
    · obtain ⟨code, st⟩ := status
      obtain ⟨hc, hb⟩ := hf
      simp only at hc hb
      subst hc
      have huf : unattended_failed l.root_directory (.terminated ⟨.CLD_EXITED, st⟩) :=
        ⟨st, rfl, hb⟩
      rw [check_again_status_failed l _ st hb]
      by_cases hfc : s.firstcheck = true
      · refine ⟨.check_again, { (check_again_parent l s) with firstcheck := false }, pev, ?_,
          hpt, parent_nforks l s, hpf, hpg, hpc, by simp [hps],
          Or.inr ⟨huf, parent_r l s, Or.inl ⟨rfl, hfc, rfl⟩⟩⟩
        rw [parent_firstcheck, if_pos hfc]
      · have hfc2 : s.firstcheck = false := by simpa using hfc
        refine ⟨.console, check_again_parent l s, pev, ?_,
          hpt, parent_nforks l s, hpf, hpg, hpc, by simp [hps],
          Or.inr ⟨huf, parent_r l s, Or.inr ⟨rfl, hfc2, ?_⟩⟩⟩
        · rw [parent_firstcheck, if_neg hfc]
        · rw [parent_firstcheck, hfc2]
    · have h2 : ¬ (status.si_code = .CLD_EXITED ∧ status.si_status &&& 2 ≠ 0 ∧
          l.root_directory = true) := fun h => hf ⟨h.1, Or.inl h.2⟩
      have h6 : ¬ (status.si_code = .CLD_EXITED ∧ status.si_status &&& 6 ≠ 0) :=
        fun h => hf ⟨h.1, Or.inr h.2⟩
      rw [check_again_status_ignored l _ status h2 h6]
      refine ⟨.finish, _, pev ++ (if status.si_code = .CLD_EXITED ∧ status.si_status &&& 1 ≠ 0
          then [.touch "/run/systemd/quotacheck"] else []), rfl, ?_, ?_, ?_, ?_, ?_, ?_,
        Or.inl rfl⟩
      · rw [touch_trace]
        simp only
        rw [hpt, List.append_assoc]
      · rw [touch_nforks]
        exact parent_nforks l s
      · rw [fork_calls_append, hpf]
        split <;> simp [fork_calls]
      · rw [targets_append, hpg]
        split <;> simp [targets]
      · intro hmem
        rcases List.mem_append.mp hmem with h | h
        · exact hpc h
        · split at h <;> simp at h
      · rw [spawns_append, hps]
        split <;> simp [spawns]

end Fsck

namespace Fsck

theorem finalcheck_parent_trace (s : State) :
    (finalcheck_parent s).trace = s.trace ++ [.spawn ["/sbin/fsck", "-y"]] := by
  simp [finalcheck_parent, argv_y]

/-- An interactive status with the reboot bit set: retry on the first attempt,
request the reboot target on the second. -/
theorem finalcheck_status_reboot (s : State) (st : Nat) (h2 : st &&& 2 ≠ 0) :
    finalcheck_status s ⟨.CLD_EXITED, st⟩ =
      if s.firstcheck = true then .goto .finalcheck { s with firstcheck := false }
      else .exit s.r (touch_quotacheck ⟨.CLD_EXITED, st⟩
        { s with trace := s.trace ++ [.start_target SPECIAL_REBOOT_TARGET] }) := by
  have hn : st &&& NOT_1 ≠ 0 := and_not1_ne_zero st 2 (by decide) h2
  unfold finalcheck_status
  rw [if_pos (Or.inr hn), if_pos ⟨rfl, h2⟩]

/-- An interactive status with bit 2 (value 4) set and the reboot bit clear:
the emergency target is requested and `main` returns. -/
theorem finalcheck_status_emergency (s : State) (st : Nat) (h4 : st &&& 4 ≠ 0)
    (h2 : st &&& 2 = 0) :
    finalcheck_status s ⟨.CLD_EXITED, st⟩ =
      .exit s.r (touch_quotacheck ⟨.CLD_EXITED, st⟩
        { s with trace := s.trace ++ [.start_target SPECIAL_EMERGENCY_TARGET] }) := by
  have hn : st &&& NOT_1 ≠ 0 := and_not1_ne_zero st 4 (by decide) h4
  unfold finalcheck_status
  rw [if_pos (Or.inr hn), if_neg (fun h => h.2 h2), if_pos ⟨rfl, h4⟩]

/-- Every other interactive status ends `main` with `EXIT_SUCCESS`. -/
theorem finalcheck_status_ignored (s : State) (status : siginfo_t)
    (h2 : ¬ (status.si_code = .CLD_EXITED ∧ status.si_status &&& 2 ≠ 0))
    (h4 : ¬ (status.si_code = .CLD_EXITED ∧ status.si_status &&& 4 ≠ 0)) :
    finalcheck_status s status =
      .exit EXIT_SUCCESS (touch_quotacheck status { s with r := EXIT_SUCCESS }) := by
  unfold finalcheck_status
  rw [if_neg h2, if_neg h4]
  split <;> rfl

/-- The events `touch_quotacheck` adds hold no fork and no console lookup. -/
theorem touch_events (status : siginfo_t) (s : State) :
    ∃ evs : List Event, (touch_quotacheck status s).trace = s.trace ++ evs ∧
      fork_calls evs = 0 ∧ Event.getfd ∉ evs := by
  refine ⟨_, touch_trace status s, ?_, ?_⟩ <;> split <;> simp [fork_calls]

/-- One pass through `finalcheck`: exactly one call of `fork()`, no console
lookup, and a jump back to `finalcheck` only from `firstcheck = true`, which
it clears. -/
theorem finalcheck_shape (env : Env) (s : State) :
    ∃ evs : List Event, fork_calls evs = 1 ∧ Event.getfd ∉ evs ∧
      ((∃ (code : Int) (s2 : State), finalcheck env s = .exit code s2 ∧
          s2.trace = s.trace ++ evs ∧ s2.nforks = s.nforks + 1) ∨
        (∃ s2 : State, finalcheck env s = .goto .finalcheck s2 ∧ s.firstcheck = true ∧
          s2.firstcheck = false ∧ s2.trace = s.trace ++ evs ∧ s2.nforks = s.nforks + 1)) := by
  cases hatt : env.attempt s.nforks with
  | fork_error =>
    refine ⟨[.fork_failed], rfl, by simp, Or.inl ⟨s.r,
      { s with nforks := s.nforks + 1, trace := s.trace ++ [.fork_failed] }, ?_, rfl, rfl⟩⟩
    unfold finalcheck
    rw [hatt]
  | wait_error =>
    refine ⟨[.spawn ["/sbin/fsck", "-y"]], rfl, by simp, Or.inl ⟨s.r, finalcheck_parent s, ?_,
      finalcheck_parent_trace s, rfl⟩⟩
    unfold finalcheck
    rw [hatt]
  | terminated status =>
    rw [finalcheck_terminated env s status hatt]
    by_cases h2 : status.si_code = .CLD_EXITED ∧ status.si_status &&& 2 ≠ 0
    · obtain ⟨code, st⟩ := status
      obtain ⟨hc, hb⟩ := h2
      simp only at hc hb
      subst hc
      rw [finalcheck_status_reboot _ st hb]
      by_cases hfc : s.firstcheck = true
      · refine ⟨[.spawn ["/sbin/fsck", "-y"]], rfl, by simp, Or.inr
          ⟨{ (finalcheck_parent s) with firstcheck := false }, ?_, hfc, rfl,
            finalcheck_parent_trace s, rfl⟩⟩
        rw [if_pos (by simpa [finalcheck_parent] using hfc)]
      · obtain ⟨tev, htt, htf, htg⟩ := touch_events ⟨.CLD_EXITED, st⟩
          { (finalcheck_parent s) with
            trace := (finalcheck_parent s).trace ++ [.start_target SPECIAL_REBOOT_TARGET] }
        rw [if_neg (by simpa [finalcheck_parent] using hfc)]
        refine ⟨[.spawn ["/sbin/fsck", "-y"], .start_target SPECIAL_REBOOT_TARGET] ++ tev, ?_, ?_,
          Or.inl ⟨_, _, rfl, ?_, ?_⟩⟩
        · rw [fork_calls_append, htf]
          rfl
        · intro hmem
          rcases List.mem_append.mp hmem with h | h
          · simp at h
          · exact htg h
        · rw [htt]
          simp [finalcheck_parent_trace]
        · rw [touch_nforks]
          rfl
    · by_cases h4 : status.si_code = .CLD_EXITED ∧ status.si_status &&& 4 ≠ 0
      · obtain ⟨code, st⟩ := status
        obtain ⟨hc, hb⟩ := h4
        simp only at hc hb
        subst hc
        have hb2 : st &&& 2 = 0 := by
          by_contra hne
          exact h2 ⟨rfl, hne⟩
        rw [finalcheck_status_emergency _ st hb hb2]
        obtain ⟨tev, htt, htf, htg⟩ := touch_events ⟨.CLD_EXITED, st⟩
          { (finalcheck_parent s) with
            trace := (finalcheck_parent s).trace ++ [.start_target SPECIAL_EMERGENCY_TARGET] }
        refine ⟨[.spawn ["/sbin/fsck", "-y"], .start_target SPECIAL_EMERGENCY_TARGET] ++ tev,
          ?_, ?_, Or.inl ⟨_, _, rfl, ?_, ?_⟩⟩
        · rw [fork_calls_append, htf]
          rfl
        · intro hmem
          rcases List.mem_append.mp hmem with h | h
          · simp at h
          · exact htg h
        · rw [htt]
          simp [finalcheck_parent_trace]
        · rw [touch_nforks]
          rfl
      · rw [finalcheck_status_ignored _ status h2 h4]
        obtain ⟨tev, htt, htf, htg⟩ := touch_events status
          { (finalcheck_parent s) with r := EXIT_SUCCESS }
        refine ⟨[.spawn ["/sbin/fsck", "-y"]] ++ tev, ?_, ?_, Or.inl ⟨_, _, rfl, ?_, ?_⟩⟩
        · rw [fork_calls_append, htf]
          rfl
        · intro hmem
          rcases List.mem_append.mp hmem with h | h
          · simp at h
          · exact htg h
        · rw [htt]
          simp [finalcheck_parent_trace]
        · rw [touch_nforks]
          rfl

/-- One pass through `console`: no call of `fork()`; it either ends the process
or jumps to `finalcheck` with `firstcheck = true` and `r = EXIT_FAILURE`. -/
theorem console_shape (env : Env) (s : State) :
    ∃ evs : List Event, fork_calls evs = 0 ∧
      ((∃ (code : Int) (s2 : State), console env s = .exit code s2 ∧
          s2.trace = s.trace ++ .getfd :: evs ∧ s2.nforks = s.nforks) ∨
        (∃ s2 : State, console env s = .goto .finalcheck s2 ∧ s2.firstcheck = true ∧
          s2.r = EXIT_FAILURE ∧ s2.trace = s.trace ++ .getfd :: evs ∧
          s2.nforks = s.nforks)) := by
  unfold console
  simp only
  cases getfd env.cons none none with
  | exit code =>
    exact ⟨[], rfl, Or.inl ⟨code, _, rfl, by simp, rfl⟩⟩
  | ret fd cpath =>
    simp only
    by_cases hfd : fd < 0
    · rw [if_pos hfd]
      exact ⟨[], rfl, Or.inl ⟨-1, _, rfl, by simp, rfl⟩⟩
    · rw [if_neg hfd]
      by_cases hvt : env.vt_activate fd ≠ 0
      · rw [if_pos hvt]
        exact ⟨[.vt_activate fd], rfl, Or.inl ⟨1, _, rfl, by simp, rfl⟩⟩
      · rw [if_neg hvt]
        exact ⟨[.vt_activate fd, .freopen cpath], rfl, Or.inr ⟨_, rfl, rfl, rfl, by simp, rfl⟩⟩

end Fsck

namespace Fsck

/-! ## The interactive stage -/

/-- C1: when the first interactive attempt and the one after it both exit
normally with the reboot bit (value 2) set, the first failure spawns
`fsck -y` once more and requests nothing, the second requests the reboot
target and nothing is spawned after it: exactly two interactive spawns precede
the single reboot request.  The stage is entered with `firstcheck = true`,
which is what every jump out of `console` sets. -/
theorem interactive_single_retry (env : Env) (l : Locals) (s : State) (st1 st2 fuel : Nat)
    (hfirst : s.firstcheck = true)
    (h1 : env.attempt s.nforks = .terminated ⟨.CLD_EXITED, st1⟩) (hb1 : st1 &&& 2 ≠ 0)
    (h2 : env.attempt (s.nforks + 1) = .terminated ⟨.CLD_EXITED, st2⟩) (hb2 : st2 &&& 2 ≠ 0) :
    (∃ sm : State, finalcheck env s = .goto .finalcheck sm ∧
        sm.trace = s.trace ++ [.spawn ["/sbin/fsck", "-y"]] ∧
        sm.firstcheck = false ∧ sm.nforks = s.nforks + 1) ∧
      (∃ sf : State, run env l (fuel + 2) .finalcheck s = some (s.r, sf) ∧
        sf.trace = s.trace ++
          [.spawn ["/sbin/fsck", "-y"], .spawn ["/sbin/fsck", "-y"],
            .start_target SPECIAL_REBOOT_TARGET] ++
          (if st2 &&& 1 ≠ 0 then [.touch "/run/systemd/quotacheck"] else []) ∧
        sf.nforks = s.nforks + 2) ∧
      (∀ (s0 sc : State) (lab : Label), console env s0 = .goto lab sc →
        lab = .finalcheck ∧ sc.firstcheck = true) := by
  have hstep1 : finalcheck env s =
      .goto .finalcheck { (finalcheck_parent s) with firstcheck := false } := by
    rw [finalcheck_terminated env s _ h1, finalcheck_status_reboot _ st1 hb1]
    rw [if_pos (by simpa [finalcheck_parent] using hfirst)]
  have hstep2 : finalcheck env { (finalcheck_parent s) with firstcheck := false } =
      .exit s.r (touch_quotacheck ⟨.CLD_EXITED, st2⟩
        { (finalcheck_parent { (finalcheck_parent s) with firstcheck := false }) with
          trace := (finalcheck_parent { (finalcheck_parent s) with firstcheck := false }).trace ++
            [.start_target SPECIAL_REBOOT_TARGET] }) := by
    rw [finalcheck_terminated env _ ⟨.CLD_EXITED, st2⟩ (by simpa [finalcheck_parent] using h2),
      finalcheck_status_reboot _ st2 hb2]
    rw [if_neg (by simp [finalcheck_parent])]
    rfl
  have hrun := (run_goto env l (fuel + 1) .finalcheck .finalcheck s _ hstep1).trans
    (run_exit env l fuel .finalcheck _ _ s.r hstep2)
  refine ⟨⟨_, hstep1, ?_, rfl, rfl⟩, ⟨_, hrun, ?_, ?_⟩, ?_⟩
  · simp [finalcheck_parent_trace]
  · rw [touch_trace]
    simp [finalcheck_parent_trace]
  · rw [touch_nforks]
    rfl
  · intro s0 sc lab hc
    obtain ⟨evs, _, hcase⟩ := console_shape env s0
    rcases hcase with ⟨code, s2, he, _, _⟩ | ⟨s2, hg, hfc, _, _, _⟩
    · rw [he] at hc
      cases hc
    · rw [hg] at hc
      injection hc with hl hs
      subst hl
      subst hs
      exact ⟨rfl, hfc⟩

/-- Two interactive attempts that both exit with status 2. -/
theorem interactive_single_retry_witness :
    ∃ sf : State,
      run (env_root none (fun _ => .terminated ⟨.CLD_EXITED, 2⟩)) locals_root 2
          .finalcheck state_console = some (1, sf) ∧
        sf.trace = state_console.trace ++
          [.spawn ["/sbin/fsck", "-y"], .spawn ["/sbin/fsck", "-y"],
            .start_target "reboot.target"] ∧
        sf.nforks = 4 :=
  (interactive_single_retry (env_root none (fun _ => .terminated ⟨.CLD_EXITED, 2⟩)) locals_root
    state_console 2 2 0 rfl rfl (by decide) rfl (by decide)).2.1

/-- C2 as stated fails: with exit status 6 (unrepairable bit 4 set together
with the reboot bit 2) on every attempt, the first interactive attempt is
followed by a second `fsck -y`, and the reboot target, not the emergency
target, is requested. -/
theorem unrepairable_with_reboot_bit_retries :
    (6 : Nat) &&& 4 ≠ 0 ∧
      main (env_root none (fun _ => .terminated ⟨.CLD_EXITED, 6⟩)) 5 =
        some (1, [.spawn argv_root, .spawn argv_root, .getfd, .vt_activate 5,
          .freopen (some "/dev/tty0"), .spawn ["/sbin/fsck", "-y"],
          .spawn ["/sbin/fsck", "-y"], .start_target "reboot.target"]) := by
  decide

/-- C2 (amended): an interactive attempt (the first or the retry) that exits
normally with bit 2 (value 4) set and the reboot bit (value 2) clear makes
`main` request the emergency target at once and return without spawning
anything more. -/
theorem unrepairable_requests_emergency (env : Env) (l : Locals) (s : State) (st fuel : Nat)
    (hatt : env.attempt s.nforks = .terminated ⟨.CLD_EXITED, st⟩)
    (h4 : st &&& 4 ≠ 0) (h2 : st &&& 2 = 0) :
    ∃ sf : State, run env l (fuel + 1) .finalcheck s = some (s.r, sf) ∧
      sf.trace = s.trace ++
        [.spawn ["/sbin/fsck", "-y"], .start_target SPECIAL_EMERGENCY_TARGET] ++
        (if st &&& 1 ≠ 0 then [.touch "/run/systemd/quotacheck"] else []) ∧
      sf.nforks = s.nforks + 1 := by
  have hstep : finalcheck env s =
      .exit s.r (touch_quotacheck ⟨.CLD_EXITED, st⟩
        { (finalcheck_parent s) with
          trace := (finalcheck_parent s).trace ++ [.start_target SPECIAL_EMERGENCY_TARGET] }) := by
    rw [finalcheck_terminated env s _ hatt, finalcheck_status_emergency _ st h4 h2]
    rfl
  refine ⟨_, run_exit env l fuel .finalcheck _ _ s.r hstep, ?_, ?_⟩
  · rw [touch_trace]
    simp [finalcheck_parent_trace]
  · rw [touch_nforks]
    rfl

/-- A first interactive attempt that exits with status 4. -/
theorem unrepairable_requests_emergency_witness :
    ∃ sf : State,
      run (env_root none (fun _ => .terminated ⟨.CLD_EXITED, 4⟩)) locals_root 1
          .finalcheck state_console = some (1, sf) ∧
        sf.trace = state_console.trace ++
          [.spawn ["/sbin/fsck", "-y"], .start_target "emergency.target"] ∧
        sf.nforks = 3 :=
  unrepairable_requests_emergency (env_root none (fun _ => .terminated ⟨.CLD_EXITED, 4⟩))
    locals_root state_console 4 0 rfl (by decide) (by decide)

end Fsck

namespace Fsck

/-! ## Retry and spawn failure at the unattended stage -/

/-- C3: a first unattended attempt (`firstcheck = true`) that exits normally
with a bit of mask 6 set (status 5 for instance), on the root file system or
not, sends `main` back to `check_again` with `firstcheck = false` and `r`
untouched, having spawned the argument vector once and requested no target.
The pass that follows calls `fork()` once more for the same argument vector,
requests no target, does not touch the console, and never jumps back to
`check_again`. -/
theorem unattended_first_failure_retries (env : Env) (l : Locals) (s : State) (st : Nat)
    (hfirst : s.firstcheck = true)
    (hatt : env.attempt s.nforks = .terminated ⟨.CLD_EXITED, st⟩)
    (h6 : st &&& 6 ≠ 0) :
    ∃ s1 : State, check_again env l s = .goto .check_again s1 ∧
      s1.firstcheck = false ∧ s1.r = s.r ∧ s1.nforks = s.nforks + 1 ∧
      s1.trace = s.trace ++ [.spawn (argv_of l.cmdline)] ++
        (if s.progress_pipe.1 ≥ 0 then [.process_progress s.progress_pipe.1] else []) ∧
      targets s1.trace = targets s.trace ∧
      ∃ (lab : Label) (s2 : State) (evs : List Event),
        check_again env l s1 = .goto lab s2 ∧ lab ≠ .check_again ∧
        s2.trace = s1.trace ++ evs ∧ fork_calls evs = 1 ∧ targets evs = [] ∧
        Event.getfd ∉ evs ∧
        spawns evs =
          (if env.attempt (s.nforks + 1) = .fork_error then [] else [argv_of l.cmdline]) := by
  have hstep : check_again env l s =
      .goto .check_again { (check_again_parent l s) with firstcheck := false } := by
    rw [check_again_terminated env l s _ hatt, check_again_status_failed l _ st (Or.inr h6),
      parent_firstcheck, if_pos hfirst]
  refine ⟨_, hstep, rfl, parent_r l s, parent_nforks l s, parent_trace l s, ?_, ?_⟩
  · show targets (check_again_parent l s).trace = targets s.trace
    rw [parent_trace, targets_append, targets_append]
    by_cases hp : s.progress_pipe.1 ≥ 0 <;> simp [hp, targets]
  · obtain ⟨lab, s2, evs, hgo, htr, hnf, hfc, htg, hgf, hsp, hlab⟩ :=
      check_again_shape env l { (check_again_parent l s) with firstcheck := false }
    have hn : ({ (check_again_parent l s) with firstcheck := false } : State).nforks =
        s.nforks + 1 := parent_nforks l s
    rw [hn] at hsp
    refine ⟨lab, s2, evs, hgo, ?_, htr, hfc, htg, hgf, hsp⟩
    rcases hlab with h | ⟨_, _, h | h⟩
    · rw [h]
      decide
    · exact absurd h.2.1 (by simp)
    · rw [h.1]
      decide

/-- A first attempt on the root file system that exits with status 5. -/
theorem unattended_first_failure_retries_witness :
    ∃ s1 : State,
      check_again (env_root none (fun _ => .terminated ⟨.CLD_EXITED, 5⟩)) locals_root
          state_root = .goto .check_again s1 ∧
        s1.firstcheck = false ∧ s1.r = 1 ∧ s1.nforks = 1 ∧
        s1.trace = [.spawn argv_root] ∧ targets s1.trace = [] ∧
        ∃ (lab : Label) (s2 : State) (evs : List Event),
          check_again (env_root none (fun _ => .terminated ⟨.CLD_EXITED, 5⟩)) locals_root s1 =
            .goto lab s2 ∧ lab ≠ .check_again ∧
          s2.trace = s1.trace ++ evs ∧ fork_calls evs = 1 ∧ targets evs = [] ∧
          Event.getfd ∉ evs ∧ spawns evs = [argv_root] :=
  unattended_first_failure_retries (env_root none (fun _ => .terminated ⟨.CLD_EXITED, 5⟩))
    locals_root state_root 5 rfl rfl (by decide)

/-- C4 as stated fails: when the child cannot exec and exits with the sentinel
code 8, `main` ignores the error and returns 0. -/
theorem exec_failure_exits_zero :
    main (env_root none (fun _ => .terminated ⟨.CLD_EXITED, 8⟩)) 5 =
        some (0, [.spawn argv_root]) ∧
      exit_status 0 = 0 := by
  decide

/-- With `ID_FS_TYPE` known and the helper present, `r` holds the 0 returned by
`fsck_exists` when `fork()` fails, and `main` returns it. -/
theorem fork_failure_known_type_exits_zero :
    main (env_root (some "ext4") (fun _ => .fork_error)) 5 = some (0, [.fork_failed]) := by
  decide

/-- C4 (amended): a failure to create the check process at an unattended
attempt is never retried and requests no target.  When `fork()` fails, `main`
jumps to `finish` having done nothing else, and returns `EXIT_FAILURE` whenever
`r` still holds its initial `EXIT_FAILURE`, as it does on arrival at
`check_again` when `ID_FS_TYPE` is unknown.  When the child exits with the
sentinel code 8, the error is ignored and `main` returns 0. -/
theorem spawn_failure_unattended (env : Env) (l : Locals) (s : State) (fuel : Nat)
    (hfail : env.attempt s.nforks = .fork_error ∨
      env.attempt s.nforks = .terminated ⟨.CLD_EXITED, 8⟩) :
    (∃ (code : Int) (sf : State), run env l (fuel + 2) .check_again s = some (code, sf) ∧
        sf.nforks = s.nforks + 1 ∧
        (env.attempt s.nforks = .fork_error →
          sf.trace = s.trace ++ [.fork_failed] ∧ (s.r = EXIT_FAILURE → code = EXIT_FAILURE)) ∧
        (env.attempt s.nforks = .terminated ⟨.CLD_EXITED, 8⟩ →
          sf.trace = s.trace ++ [.spawn (argv_of l.cmdline)] ++
            (if s.progress_pipe.1 ≥ 0 then [.process_progress s.progress_pipe.1] else []) ∧
          code = 0)) ∧
      (∀ (l0 : Locals) (s0 : State), main_setup env = .ready l0 s0 →
        env.id_fs_type = none → s0.r = EXIT_FAILURE) ∧
      exit_status EXIT_FAILURE ≠ 0 := by
  refine ⟨?_, ?_, by decide⟩
  · rcases hfail with hf | hx
    · have hstep : check_again env l s = .goto .finish
          { s with nforks := s.nforks + 1, trace := s.trace ++ [.fork_failed] } := by
        unfold check_again
        rw [hf]
      have hrun := (run_goto env l (fuel + 1) .check_again .finish s _ hstep).trans
        (run_finish env l fuel _)
      refine ⟨_, _, hrun, rfl, fun _ => ⟨rfl, fun hr => hr⟩, fun h => ?_⟩
      rw [hf] at h
      cases h
    · have hstep : check_again env l s = .goto .finish
          (touch_quotacheck ⟨.CLD_EXITED, 8⟩
            { (check_again_parent l s) with r := EXIT_SUCCESS }) := by
        rw [check_again_terminated env l s _ hx]
        exact check_again_status_ignored l _ _ (fun h => h.2.1 (by decide))
          (fun h => h.2 (by decide))
      have hrun := (run_goto env l (fuel + 1) .check_again .finish s _ hstep).trans
        (run_finish env l fuel _)
      refine ⟨_, _, hrun, ?_, fun h => ?_, fun _ => ⟨?_, ?_⟩⟩
      · show (touch_quotacheck _ _).nforks = _
        rw [touch_nforks]
        exact parent_nforks l s
      · rw [hx] at h
        cases h
      · show (touch_quotacheck _ _).trace = _
        rw [touch_trace]
        simp [parent_trace]
      · rw [touch_r]
        rfl
  · intro l0 s0 hready hty
    obtain ⟨_, _, _, _, _, hr⟩ := main_setup_cmdline env l0 s0 hready
    exact hr hty

/-- A first `fork()` that fails while `ID_FS_TYPE` is unknown. -/
theorem spawn_failure_unattended_witness :
    ∃ (code : Int) (sf : State),
      run (env_root none (fun _ => .fork_error)) locals_root 2 .check_again state_root =
          some (code, sf) ∧
        sf.nforks = 1 ∧ sf.trace = [.fork_failed] ∧ code = 1 := by
  obtain ⟨⟨code, sf, hrun, hn, hf, _⟩, _, _⟩ :=
    spawn_failure_unattended (env_root none (fun _ => .fork_error)) locals_root state_root 0
      (Or.inl rfl)
  exact ⟨code, sf, hrun, hn, (hf rfl).1, (hf rfl).2 rfl⟩

end Fsck

namespace Fsck

/-! ## Bounded retry -/

theorem spawns_of_failed (root : Bool) (a : Attempt) (argv : List String)
    (evs : List Event) (h : unattended_failed root a)
    (hs : spawns evs = (if a = .fork_error then [] else [argv])) : spawns evs = [argv] := by
  obtain ⟨st, ha, _⟩ := h
  rw [hs, ha]
  simp

/-- Every run of the blocks of `main` from `check_again`, started with
`firstcheck = true`, with no fork made and an empty trace, ends within five
blocks.  The trace splits into the unattended part `pre` and the part `post`
from the console lookup on. -/
theorem run_bounded (env : Env) (l : Locals) (r : Int) (pp : Int × Int) (n : Nat) :
    ∃ (code : Int) (sf : State) (pre post : List Event),
      run env l (n + 5) .check_again ⟨true, r, pp, 0, []⟩ = some (code, sf) ∧
      sf.trace = pre ++ post ∧ sf.nforks = fork_calls sf.trace ∧
      Event.getfd ∉ pre ∧ fork_calls pre ≤ 2 ∧ targets pre = [] ∧
      (post = [] ∨ ∃ rest : List Event, post = .getfd :: rest ∧ fork_calls rest ≤ 2 ∧
        fork_calls pre = 2 ∧
        spawns pre = [argv_of l.cmdline, argv_of l.cmdline] ∧
        unattended_failed l.root_directory (env.attempt 0) ∧
        unattended_failed l.root_directory (env.attempt 1)) := by
  obtain ⟨lab1, s1, ev1, hgo1, htr1, hnf1, hfc1, htg1, hgf1, hsp1, hlab1⟩ :=
    check_again_shape env l ⟨true, r, pp, 0, []⟩
  simp only [List.nil_append, Nat.zero_add] at htr1 hnf1 hsp1 hlab1
  have hrun1 := run_goto env l (n + 4) .check_again lab1 _ s1 hgo1
  rcases hlab1 with hfin | ⟨huf0, _, ⟨hl1, _, hs1fc⟩ | ⟨_, hcontra, _⟩⟩
  · -- the first attempt ends the run
    subst hfin
    rw [run_finish] at hrun1
    refine ⟨_, _, ev1, [], hrun1, ?_, ?_, hgf1, by omega, htg1, Or.inl rfl⟩
    · simp [htr1]
    · simp [htr1, hnf1, hfc1]
  · -- the first attempt failed: second unattended attempt
    subst hl1
    obtain ⟨lab2, s2, ev2, hgo2, htr2, hnf2, hfc2, htg2, hgf2, hsp2, hlab2⟩ :=
      check_again_shape env l s1
    rw [hnf1] at hsp2 hlab2 hnf2
    rw [htr1] at htr2
    have hrun2 := hrun1.trans (run_goto env l (n + 3) .check_again lab2 s1 s2 hgo2)
    have hpre_g : Event.getfd ∉ ev1 ++ ev2 := by
      intro hmem
      rcases List.mem_append.mp hmem with h | h
      · exact hgf1 h
      · exact hgf2 h
    have hpre_f : fork_calls (ev1 ++ ev2) = 2 := by
      rw [fork_calls_append, hfc1, hfc2]
    have hpre_t : targets (ev1 ++ ev2) = [] := by
      rw [targets_append, htg1, htg2]
      rfl
    rcases hlab2 with hfin | ⟨huf1, _, ⟨_, hcontra, _⟩ | ⟨hl2, _, _⟩⟩
    · subst hfin
      rw [run_finish] at hrun2
      refine ⟨_, _, ev1 ++ ev2, [], hrun2, ?_, ?_, hpre_g, by omega, hpre_t, Or.inl rfl⟩
      · simp [htr2]
      · simp only [htr2, hnf2, hpre_f]
    · rw [hs1fc] at hcontra
      cases hcontra
    · -- both unattended attempts failed: console stage
      subst hl2
      have hsp : spawns (ev1 ++ ev2) = [argv_of l.cmdline, argv_of l.cmdline] := by
        rw [spawns_append, spawns_of_failed _ _ _ ev1 huf0 hsp1,
          spawns_of_failed _ _ _ ev2 huf1 hsp2]
        rfl
      obtain ⟨evc, hfcc, hcase⟩ := console_shape env s2
      rcases hcase with ⟨code, s3, hex, htr3, hnf3⟩ | ⟨s3, hgo3, hs3fc, _, htr3, hnf3⟩
      · have hrun3 := hrun2.trans (run_exit env l (n + 2) .console s2 s3 code hex)
        refine ⟨_, _, ev1 ++ ev2, .getfd :: evc, hrun3, ?_, ?_, hpre_g, by omega, hpre_t,
          Or.inr ⟨evc, rfl, by omega, hpre_f, hsp, huf0, huf1⟩⟩
        · rw [htr3, htr2]
        · rw [htr3, htr2, hnf3, hnf2, fork_calls_append, hpre_f]
          simp [fork_calls, hfcc]
      · have hrun3 := hrun2.trans (run_goto env l (n + 2) .console .finalcheck s2 s3 hgo3)
        obtain ⟨ev3, hfc3, _, hcase3⟩ := finalcheck_shape env s3
        rcases hcase3 with ⟨code, s4, hex, htr4, hnf4⟩ | ⟨s4, hgo4, _, hs4fc, htr4, hnf4⟩
        · have hrun4 := hrun3.trans (run_exit env l (n + 1) .finalcheck s3 s4 code hex)
          refine ⟨_, _, ev1 ++ ev2, .getfd :: (evc ++ ev3), hrun4, ?_, ?_, hpre_g, by omega,
            hpre_t, Or.inr ⟨evc ++ ev3, rfl, ?_, hpre_f, hsp, huf0, huf1⟩⟩
          · rw [htr4, htr3, htr2]
            simp
          · rw [htr4, htr3, htr2, hnf4, hnf3, hnf2]
            simp only [fork_calls_append, fork_calls, hfc1, hfc2, hfc3, hfcc]
          · rw [fork_calls_append, hfcc, hfc3]
            omega
        · have hrun4 := hrun3.trans (run_goto env l (n + 1) .finalcheck .finalcheck s3 s4 hgo4)
          obtain ⟨ev4, hfc4, _, hcase4⟩ := finalcheck_shape env s4
          rcases hcase4 with ⟨code, s5, hex, htr5, hnf5⟩ | ⟨_, _, hcontra, _⟩
          · have hrun5 := hrun4.trans (run_exit env l n .finalcheck s4 s5 code hex)
            refine ⟨_, _, ev1 ++ ev2, .getfd :: (evc ++ ev3 ++ ev4), hrun5, ?_, ?_, hpre_g,
              by omega, hpre_t, Or.inr ⟨evc ++ ev3 ++ ev4, rfl, ?_, hpre_f, hsp, huf0, huf1⟩⟩
            · rw [htr5, htr4, htr3, htr2]
              simp
            · rw [htr5, htr4, htr3, htr2, hnf5, hnf4, hnf3, hnf2]
              simp only [fork_calls_append, fork_calls, hfc1, hfc2, hfc3, hfc4, hfcc]
            · rw [fork_calls_append, fork_calls_append, hfcc, hfc3, hfc4]
          · rw [hs4fc] at hcontra
            cases hcontra
  · cases hcontra

/-- C10: for every environment, whatever `fork()`, the waits, the children
and the console lookup answer, `main` ends within five blocks (any fuel from 5
on gives its result) after at most four calls of `fork()`: at most two before
the console lookup and at most two after it.  The console lookup happens only
after exactly two unattended spawns of the same argument vector, both of
which ended with a failed status, and no target is requested before it. -/
theorem main_bounded_retry (env : Env) (n : Nat) :
    ∃ (code : Int) (tr pre post : List Event),
      main env (n + 5) = some (code, tr) ∧ tr = pre ++ post ∧ fork_calls tr ≤ 4 ∧
      Event.getfd ∉ pre ∧ fork_calls pre ≤ 2 ∧ targets pre = [] ∧
      (post = [] ∨ ∃ (rest : List Event) (l : Locals) (s0 : State),
        main_setup env = .ready l s0 ∧
        post = .getfd :: rest ∧ fork_calls rest ≤ 2 ∧ fork_calls pre = 2 ∧
        spawns pre = [argv_of l.cmdline, argv_of l.cmdline] ∧
        unattended_failed l.root_directory (env.attempt 0) ∧
        unattended_failed l.root_directory (env.attempt 1)) := by
  cases hset : main_setup env with
  | returned code =>
    refine ⟨code, [], [], [], ?_, rfl, by simp [fork_calls], by simp, by simp [fork_calls], rfl,
      Or.inl rfl⟩
    unfold main
    rw [hset]
  | ready l s0 =>
    obtain ⟨_, _, hfc, hnf, htr, _⟩ := main_setup_cmdline env l s0 hset
    obtain ⟨code, sf, pre, post, hrun, hsplit, _, hg, hpre, htg, hpost⟩ :=
      run_bounded env l s0.r s0.progress_pipe n
    have hs0 : s0 = ⟨true, s0.r, s0.progress_pipe, 0, []⟩ := by
      cases s0
      simp only at hfc hnf htr
      subst hfc
      subst hnf
      subst htr
      rfl
    have hmain : main env (n + 5) = some (code, sf.trace) := by
      unfold main
      rw [hset]
      simp only
      rw [hs0, hrun]
      rfl
    refine ⟨code, sf.trace, pre, post, hmain, hsplit, ?_, hg, hpre, htg, ?_⟩
    · rw [hsplit, fork_calls_append]
      rcases hpost with h | ⟨rest, h, hr, _⟩
      · rw [h]
        simp only [fork_calls]
        omega
      · rw [h]
        simp only [fork_calls]
        omega
    · rcases hpost with h | ⟨rest, h1, h2, h3, h4, h5, h6⟩
      · exact Or.inl h
      · exact Or.inr ⟨rest, l, s0, rfl, h1, h2, h3, h4, h5, h6⟩

end Fsck

namespace Fsck

/-! ## Rate limit of the progress display -/

/-- What one loop pass does to the log: nothing, or one more line, the one of
the current record. -/
theorem progress_iter_cases (fmt_len : String → ℚ → Int) (s : ProgressState)
    (x : ProgressRecord) :
    ((progress_iter fmt_len s x).written = s.written ∧
        (progress_iter fmt_len s x).last = s.last) ∨
      ((progress_iter fmt_len s x).written = s.written ++ [x.line] ∧
        (progress_iter fmt_len s x).last = x.t ∧
        ¬ (s.last + 50 * USEC_PER_MSEC) % 2 ^ 64 > x.t) := by
  unfold progress_iter
  by_cases h1 : s.locked = false ∧ x.flock_ok = false
  · rw [if_pos h1]
    exact Or.inl ⟨rfl, rfl⟩
  · rw [if_neg h1]
    simp only
    by_cases h2 : (s.last + 50 * USEC_PER_MSEC) % 2 ^ 64 > x.t
    · rw [if_pos h2]
      exact Or.inl ⟨rfl, rfl⟩
    · rw [if_neg h2]
      exact Or.inr ⟨rfl, rfl, h2⟩

/-- A record whose clock value is below `last + 50ms` leaves the log and
`last` as they were. -/
theorem progress_iter_early (fmt_len : String → ℚ → Int) (s : ProgressState)
    (x : ProgressRecord) (hs : s.last + 50 * USEC_PER_MSEC < 2 ^ 64)
    (hx : x.t < s.last + 50 * USEC_PER_MSEC) :
    (progress_iter fmt_len s x).written = s.written ∧
      (progress_iter fmt_len s x).last = s.last := by
  rcases progress_iter_cases fmt_len s x with h | ⟨_, _, h⟩
  · exact h
  · rw [Nat.mod_eq_of_lt hs] at h
    omega

theorem progress_inv_init : progress_inv progress_init := by
  refine ⟨List.Pairwise.nil, ?_, rfl, ?_⟩
  · intro ln h
    simp [progress_init] at h
  · simp [progress_init, USEC_PER_MSEC]

theorem progress_inv_iter (fmt_len : String → ℚ → Int) (s : ProgressState)
    (x : ProgressRecord) (hx : x.t + 50 * USEC_PER_MSEC < 2 ^ 64) (h : progress_inv s) :
    progress_inv (progress_iter fmt_len s x) := by
  obtain ⟨hp, hle, hlast, hr⟩ := h
  rcases progress_iter_cases fmt_len s x with ⟨hw, hl⟩ | ⟨hw, hl, hnot⟩
  · unfold progress_inv
    rw [hw, hl]
    exact ⟨hp, hle, hlast, hr⟩
  · rw [Nat.mod_eq_of_lt hr] at hnot
    have hge : s.last + 50 * USEC_PER_MSEC ≤ x.t := by omega
    unfold progress_inv
    rw [hw, hl]
    refine ⟨?_, ?_, ?_, hx⟩
    · rw [List.pairwise_append]
      refine ⟨hp, List.pairwise_singleton _ _, ?_⟩
      intro a ha b hb
      rw [List.mem_singleton] at hb
      subst hb
      have := hle a ha
      show a.t + 50 * USEC_PER_MSEC ≤ x.t
      omega
    · intro ln hln
      rcases List.mem_append.mp hln with h1 | h1
      · have := hle ln h1
        omega
      · rw [List.mem_singleton] at h1
        subst h1
        exact Nat.le_refl _
    · simp [ProgressRecord.line]

theorem progress_inv_loop (fmt_len : String → ℚ → Int) (recs : List ProgressRecord) :
    ∀ s : ProgressState, (∀ y ∈ recs, y.t + 50 * USEC_PER_MSEC < 2 ^ 64) → progress_inv s →
      progress_inv (progress_loop fmt_len s recs) := by
  induction recs with
  | nil =>
    intro s _ h
    exact h
  | cons x xs ih =>
    intro s hr h
    show progress_inv (progress_loop fmt_len (progress_iter fmt_len s x) xs)
    exact ih _ (fun y hy => hr y (List.mem_cons_of_mem _ hy))
      (progress_inv_iter fmt_len s x (hr x (List.mem_cons_self _ _)) h)

/-- The loop only appends to the log, and what it appends are lines of the
records it reads, in their order. -/
theorem progress_loop_sublist (fmt_len : String → ℚ → Int) (recs : List ProgressRecord) :
    ∀ s : ProgressState, ∃ w : List ProgressLine,
      (progress_loop fmt_len s recs).written = s.written ++ w ∧
        w.Sublist (recs.map ProgressRecord.line) := by
  induction recs with
  | nil =>
    intro s
    exact ⟨[], by simp [progress_loop], List.Sublist.refl _⟩
  | cons x xs ih =>
    intro s
    obtain ⟨w, hw, hsub⟩ := ih (progress_iter fmt_len s x)
    have hloop : progress_loop fmt_len s (x :: xs) =
        progress_loop fmt_len (progress_iter fmt_len s x) xs := rfl
    rcases progress_iter_cases fmt_len s x with ⟨h1, _⟩ | ⟨h1, _, _⟩
    · refine ⟨w, ?_, ?_⟩
      · rw [hloop, hw, h1]
      · rw [List.map_cons]
        exact List.Sublist.cons _ hsub
    · refine ⟨x.line :: w, ?_, ?_⟩
      · rw [hloop, hw, h1, List.append_assoc]
        rfl
      · rw [List.map_cons]
        exact List.Sublist.cons₂ _ hsub

theorem progress_loop_append (fmt_len : String → ℚ → Int) (s : ProgressState)
    (a b : List ProgressRecord) :
    progress_loop fmt_len s (a ++ b) = progress_loop fmt_len (progress_loop fmt_len s a) b := by
  unfold progress_loop
  rw [List.foldl_append]

theorem process_progress_written (fmt_len : String → ℚ → Int) (recs : List ProgressRecord) :
    (process_progress fmt_len none true recs).written =
      (progress_loop fmt_len progress_init recs).written := rfl

/-- C8: as long as `last + 50ms` does not wrap around 64 bits, the progress
lines `process_progress` writes are pairwise at least 50 milliseconds apart in
the clock values at which they were written, and they are lines of the records
read, in arrival order.  `last` is the time of the last line written.  A
record that arrives less than 50ms after the last written line is dropped: the
log is unchanged by it, and everything written afterwards comes from the
records that arrive after it. -/
theorem progress_rate_limit (fmt_len : String → ℚ → Int) (recs : List ProgressRecord)
    (hrange : ∀ y ∈ recs, y.t + 50 * USEC_PER_MSEC < 2 ^ 64) :
    (process_progress fmt_len none true recs).written.Pairwise
        (fun a b => a.t + 50 * USEC_PER_MSEC ≤ b.t) ∧
      (process_progress fmt_len none true recs).written.Sublist
        (recs.map ProgressRecord.line) ∧
      (∀ (front back : List ProgressRecord) (x : ProgressRecord),
        recs = front ++ x :: back →
        (progress_loop fmt_len progress_init front).last =
            (((progress_loop fmt_len progress_init front).written.getLast?).map
              (fun ln => ln.t)).getD 0 ∧
          (x.t < (progress_loop fmt_len progress_init front).last + 50 * USEC_PER_MSEC →
            (process_progress fmt_len none true (front ++ [x])).written =
                (process_progress fmt_len none true front).written ∧
              ∃ w : List ProgressLine,
                (process_progress fmt_len none true recs).written =
                    (process_progress fmt_len none true front).written ++ w ∧
                  w.Sublist (back.map ProgressRecord.line))) := by
  refine ⟨?_, ?_, ?_⟩
  · rw [process_progress_written]
    exact (progress_inv_loop fmt_len recs _ hrange progress_inv_init).1
  · rw [process_progress_written]
    obtain ⟨w, hw, hsub⟩ := progress_loop_sublist fmt_len recs progress_init
    rw [hw]
    simpa [progress_init] using hsub
  · intro front back x hsplit
    have hfront : ∀ y ∈ front, y.t + 50 * USEC_PER_MSEC < 2 ^ 64 := by
      intro y hy
      apply hrange
      rw [hsplit]
      exact List.mem_append_left _ hy
    have hinv := progress_inv_loop fmt_len front _ hfront progress_inv_init
    refine ⟨hinv.2.2.1, ?_⟩
    intro hearly
    have hdrop := progress_iter_early fmt_len _ x hinv.2.2.2 hearly
    have hone : progress_loop fmt_len progress_init (front ++ [x]) =
        progress_iter fmt_len (progress_loop fmt_len progress_init front) x := by
      rw [progress_loop_append]
      rfl
    refine ⟨?_, ?_⟩
    · rw [process_progress_written, process_progress_written, hone]
      exact hdrop.1
    · obtain ⟨w, hw, hsub⟩ := progress_loop_sublist fmt_len back
        (progress_iter fmt_len (progress_loop fmt_len progress_init front) x)
      refine ⟨w, ?_, hsub⟩
      rw [process_progress_written, process_progress_written, hsplit]
      have : front ++ x :: back = (front ++ [x]) ++ back := by simp
      rw [this, progress_loop_append, hone, hw, hdrop.1]

end Fsck

namespace Fsck

/-- On `recs_example` the second record, 20ms after the first, is dropped and
the other two are written. -/
theorem recs_example_written :
    (process_progress (fun _ _ => 30) none true recs_example).written.map (fun ln => ln.t) =
      [100000, 160000] := by
  decide

/-- The three records of `recs_example`. -/
theorem progress_rate_limit_witness :
    (process_progress (fun _ _ => 30) none true recs_example).written.Pairwise
        (fun a b => a.t + 50 * USEC_PER_MSEC ≤ b.t) ∧
      (process_progress (fun _ _ => 30) none true recs_example).written.Sublist
        (recs_example.map ProgressRecord.line) :=
  ⟨(progress_rate_limit (fun _ _ => 30) recs_example (by decide)).1,
    (progress_rate_limit (fun _ _ => 30) recs_example (by decide)).2.1⟩

end Fsck
